import Mathlib

/-!
Verification of the style-reconciler and inventory-differ core of the
rennie.org static-site pipeline (scripts/content_parser.py and
scripts/generate_images.py).

Python strings are embedded as lists of characters (`PyStr`) and the
string primitives the scripts use (`str.split`, `str.replace`,
`str.startswith`, `str.strip`, `random.choice`, ...) are reimplemented
below with Python's semantics (left-to-right, non-overlapping occurrence
scanning; `split` with a maxsplit count; `replace` replacing every
occurrence).  JSON documents read from sidecar metadata files are
embedded as the inductive type `J`; Python `dict.get` on a non-dict
value raises `AttributeError`, which is modelled by `Except`-valued
accessors.  Randomness (`random.choice`) is modelled by threading an
arbitrary natural number `r` and picking index `r % length`, so theorems
quantifying over `r` cover every draw the library could make.
-/

namespace Rennie

/-- Python strings, embedded as lists of characters. -/
abbrev PyStr := List Char

/-- Embed a Lean string literal as a `PyStr`. -/
def ps (s : String) : PyStr := s.data

/-- Auxiliary scanner for `pySplit`: `fuel` bounds the recursion, `cur` is
the reversed accumulator of the current piece. -/
def pySplitAux (sep : PyStr) : Nat → PyStr → PyStr → List PyStr
  | 0, cur, s => [cur.reverse ++ s]
  | fuel + 1, cur, s =>
    if sep ≠ [] ∧ List.isPrefixOf sep s then
      cur.reverse :: pySplitAux sep fuel [] (s.drop sep.length)
    else
      match s with
      | [] => [cur.reverse]
      | c :: t => pySplitAux sep fuel (c :: cur) t

/-- Python `s.split(sep)` (all occurrences, left-to-right,
non-overlapping), for a non-empty separator. -/
def pySplit (sep s : PyStr) : List PyStr := pySplitAux sep (s.length + 1) [] s

/-- Python `sep.join(parts)`. -/
def pyJoin (sep : PyStr) (parts : List PyStr) : PyStr := List.intercalate sep parts

/-- Python `s.split(sep, 2)`: at most two splits, remainder kept verbatim
(the rejoin of the full split reconstructs the remainder exactly). -/
def pySplit2 (sep s : PyStr) : List PyStr :=
  let parts := pySplit sep s
  if parts.length ≤ 3 then parts
  else parts.take 2 ++ [pyJoin sep (parts.drop 2)]

/-- Python `s.replace(old, new)` for a non-empty `old` (every occurrence,
left-to-right, non-overlapping). -/
def pyReplace (s old new : PyStr) : PyStr := pyJoin new (pySplit old s)

/-- Python `s.startswith(p)`. -/
def pyStartsWith (s p : PyStr) : Bool := List.isPrefixOf p s

/-- Python substring containment `p in s` for non-empty `p`. -/
def pyHasSub (s p : PyStr) : Bool := (pySplit p s).length != 1

/-- The prefix part of Python `s.rsplit(sep, 1)` (split at the last
occurrence; the whole string when `sep` does not occur).  Used with the
separator `"_v"`, which cannot overlap itself, so rejoining the
left-to-right split pieces is exactly the text before the last
occurrence. -/
def pyRsplitPre (sep s : PyStr) : PyStr :=
  let parts := pySplit sep s
  if parts.length ≤ 1 then s else pyJoin sep parts.dropLast

/-- Python `s.strip()`. -/
def pyStrip (s : PyStr) : PyStr :=
  ((s.dropWhile Char.isWhitespace).reverse.dropWhile Char.isWhitespace).reverse

/-- Decimal digit character. -/
def digitChar (n : Nat) : Char :=
  match n with
  | 0 => '0' | 1 => '1' | 2 => '2' | 3 => '3' | 4 => '4'
  | 5 => '5' | 6 => '6' | 7 => '7' | 8 => '8' | _ => '9'

/-- Fuel-bounded decimal rendering of a natural number. -/
def natToStrAux : Nat → Nat → PyStr
  | 0, n => [digitChar (n % 10)]
  | fuel + 1, n => if n < 10 then [digitChar n] else natToStrAux fuel (n / 10) ++ [digitChar (n % 10)]

/-- Decimal rendering of a natural number (Python `str(n)`). -/
def natToStr (n : Nat) : PyStr := natToStrAux n n

/-- Python `random.choice(l)` outcome when the random source selects
index `r % l.length`; `none` models the `IndexError` raised on an empty
sequence. -/
def pyChoice {α : Type} (l : List α) (r : Nat) : Option α := l.get? (r % l.length)

/-- JSON values as parsed by Python `json.load`. -/
inductive J where
  | jnull : J
  | jstr (s : PyStr) : J
  | jnum (n : Int) : J
  | jbool (b : Bool) : J
  | jarr (elems : List J) : J
  | jobj (fields : List (PyStr × J)) : J

instance : Inhabited J := ⟨J.jnull⟩

instance : Nonempty J := ⟨J.jnull⟩

/-- Lookup in an association list where the last binding wins, as for
key assignment (and duplicate keys) in Python dicts. -/
def lookupLast {β : Type} (fields : List (PyStr × β)) (k : PyStr) : Option β :=
  match fields with
  | [] => none
  | (k', v) :: t => match lookupLast t k with
    | some w => some w
    | none => if k' = k then some v else none

/-- Lookup in a JSON object. -/
def jLookup (fields : List (PyStr × J)) (k : PyStr) : Option J := lookupLast fields k

/-- Python `d.get(k, dflt)`: key lookup on a dict, `AttributeError`
(modelled as `Except.error ()`) on any non-dict value. -/
def pyGet (v : J) (k : PyStr) (dflt : J) : Except Unit J :=
  match v with
  | .jobj fields => .ok ((jLookup fields k).getD dflt)
  | _ => .error ()

/-- Python truthiness of a JSON value. -/
def truthy : J → Bool
  | .jnull => false
  | .jstr s => s ≠ []
  | .jnum n => n ≠ 0
  | .jbool b => b
  | .jarr l => ¬ l.isEmpty
  | .jobj l => ¬ l.isEmpty

/-- Python `v != s` comparing a JSON value against a string: only a
string with the same characters compares equal. -/
def pyNeStr (v : J) (s : PyStr) : Bool :=
  match v with
  | .jstr t => t ≠ s
  | _ => true

/-- The style library `styles.json`: the key lists (in insertion order)
of its two top-level style collections. -/
structure StylesData where
  painting_technique_styles : List PyStr
  visual_storytelling_techniques : List PyStr

/-- ContentParser._get_random_style: a random key from the named
category, with the fixed fallback "turner-atmospheric" when the
category's style set is empty (or the category is unknown). -/
def getRandomStyle (sd : StylesData) (style_category : PyStr) (r : Nat) : Option PyStr :=
  let styles :=
    if style_category = ps "painting_technique" then sd.painting_technique_styles
    else if style_category = ps "visual_storytelling" then sd.visual_storytelling_techniques
    else []
  if styles ≠ [] then pyChoice styles r else some (ps "turner-atmospheric")

/-- ContentParser._validate_style_in_category. -/
def validateStyleInCategory (sd : StylesData) (style_name style_category : PyStr) : Bool :=
  if style_category = ps "painting_technique" then
    sd.painting_technique_styles.contains style_name
  else if style_category = ps "visual_storytelling" then
    sd.visual_storytelling_techniques.contains style_name
  else false

/-- ContentParser.select_style: returns `(style_name, actual_category)`;
`none` models an uncaught exception (which the theorems below show never
happens). -/
def selectStyle (sd : StylesData) (style_category style_specific : PyStr) (r : Nat) :
    Option (PyStr × PyStr) :=
  if style_category = ps "random" then
    let all_styles :=
      sd.painting_technique_styles.map (fun s => (s, ps "painting_technique"))
        ++ sd.visual_storytelling_techniques.map (fun s => (s, ps "visual_storytelling"))
    if all_styles ≠ [] then pyChoice all_styles r
    else some (ps "turner-atmospheric", ps "painting_technique")
  else if style_category = ps "painting_technique" ∨ style_category = ps "visual_storytelling" then
    if style_specific = ps "random" then
      (getRandomStyle sd style_category r).map (fun n => (n, style_category))
    else if validateStyleInCategory sd style_specific style_category then
      some (style_specific, style_category)
    else
      (getRandomStyle sd style_category r).map (fun n => (n, style_category))
  else
    (getRandomStyle sd (ps "painting_technique") r).map (fun n => (n, ps "painting_technique"))

/-- The fresh-draw arm of get_stable_style_for_content (its call to
_generate_new_style_assignment, which just delegates to select_style),
tagged with the content_changed flag it returns. -/
def freshDraw (sd : StylesData) (style_category style_specific : PyStr) (r : Nat)
    (changed : Bool) : Except Unit (J × J × Bool) :=
  match selectStyle sd style_category style_specific r with
  | some (n, c) => .ok (.jstr n, .jstr c, changed)
  | none => .error ()

/-- ContentParser.get_stable_style_for_content.  The variation-1 sidecar
is `none` when the metadata file does not exist, `some (.error ())` when
it exists but `json.load` fails (caught: `JSONDecodeError`), and
`some (.ok v)` when it parses to the JSON value `v`.  Accessor failures
(`AttributeError` from `.get` on a non-dict) are not caught by the
source and surface as `.error ()`. -/
def getStableStyleForContent (sd : StylesData) (sidecar : Option (Except Unit J))
    (content_text style_category style_specific : PyStr) (r : Nat) :
    Except Unit (J × J × Bool) :=
  match sidecar with
  | some (.ok metadata) =>
    match pyGet metadata (ps "style") (.jobj []) with
    | .error e => .error e
    | .ok s1 =>
      match pyGet s1 (ps "name") .jnull with
      | .error e => .error e
      | .ok existing_style =>
        match pyGet metadata (ps "style") (.jobj []) with
        | .error e => .error e
        | .ok s2 =>
          match pyGet s2 (ps "approach") .jnull with
          | .error e => .error e
          | .ok existing_approach =>
            match pyGet metadata (ps "content") (.jobj []) with
            | .error e => .error e
            | .ok c1 =>
              match pyGet c1 (ps "quote_text") (.jstr []) with
              | .error e => .error e
              | .ok existing_content =>
                if pyNeStr existing_content content_text then
                  freshDraw sd style_category style_specific r true
                else if truthy existing_style && truthy existing_approach then
                  .ok (existing_style, existing_approach, false)
                else
                  freshDraw sd style_category style_specific r false
  | some (.error _) => freshDraw sd style_category style_specific r false
  | none => freshDraw sd style_category style_specific r false

/-- Python `s.split(sep, 1)`: at most one split, remainder kept verbatim. -/
def pySplit1 (sep s : PyStr) : List PyStr :=
  let parts := pySplit sep s
  if parts.length ≤ 2 then parts else parts.take 1 ++ [pyJoin sep (parts.drop 1)]

/-- The splitting performed by `re.split(r"^## ", markdown, flags=re.MULTILINE)`
in ContentParser._parse_sections: a header delimiter is a "## " either at
the start of the text or right after a newline.  When the delimiter
follows a newline, that newline stays with the preceding piece in Python;
every piece is passed through `strip()` by the caller, so the pieces are
modelled without the dangling newline. -/
def reSplitHeaders (md : PyStr) : List PyStr :=
  if pyStartsWith md (ps "## ") then [] :: pySplit (ps "\n## ") (md.drop 3)
  else pySplit (ps "\n## ") md

/-- ContentParser._parse_sections: the text before the first "## " header
becomes the "main" section (when non-empty); each header introduces a
section stored under its normalized name, any header containing
"why i like it" being normalized to "why_i_like_it". -/
def parseSections (markdown : PyStr) : List (PyStr × PyStr) :=
  let parts := reSplitHeaders markdown
  let mainSec : List (PyStr × PyStr) :=
    match parts with
    | [] => []
    | p0 :: _ => if p0 ≠ [] then [(ps "main", pyStrip p0)] else []
  mainSec ++ (parts.drop 1).map (fun part =>
    let lines := pySplit1 (ps "\n") part
    let header := (pyStrip (lines.headD [])).map Char.toLower
    let content := if lines.length > 1 then pyStrip (lines.getD 1 []) else []
    if pyHasSub header (ps "why i like it") then (ps "why_i_like_it", content)
    else (pyReplace header (ps " ") (ps "_"), content))

/-- Failure modes of ContentParser.parse_markdown.  The source raises
`ValueError` for a missing or too-short frontmatter block and for a
missing required field; a frontmatter block that `yaml.safe_load`
rejects raises a yaml error, and one that loads as `None` (an empty
mapping block) raises `TypeError` at the `field not in frontmatter`
test.  All of them propagate to the caller as a failed parse. -/
inductive ParseErr where
  | noFrontmatter : ParseErr
  | invalidFormat : ParseErr
  | yamlError : ParseErr
  | nonMappingFrontmatter : ParseErr
  | missingField (f : PyStr) : ParseErr

/-- The `yaml.safe_load` dependency, abstracted: applied to the
frontmatter text it either fails, yields an empty document (Python
`None`), or yields a key-value mapping. -/
abbrev YamlLoad := PyStr → Except Unit (Option (List (PyStr × J)))

/-- The required frontmatter fields of ContentParser.parse_markdown. -/
def requiredFields : List PyStr := [ps "title", ps "author", ps "type"]

/-- The successful result of ContentParser.parse_markdown (the
`file_path` echo field is omitted: it is the input path unchanged). -/
structure MarkdownDoc where
  frontmatter : List (PyStr × J)
  content : PyStr
  why_i_like_it : PyStr
  all_sections : List (PyStr × PyStr)

/-- The style-field defaulting of ContentParser.parse_markdown (source
lines setting absent style_category and style_specific keys to
"random"). -/
def applyStyleDefaults (fm : List (PyStr × J)) : List (PyStr × J) :=
  let fm1 :=
    if (fm.map Prod.fst).contains (ps "style_category") then fm
    else fm ++ [(ps "style_category", .jstr (ps "random"))]
  if (fm1.map Prod.fst).contains (ps "style_specific") then fm1
  else fm1 ++ [(ps "style_specific", .jstr (ps "random"))]

/-- ContentParser.parse_markdown on the text of a source file. -/
def parseMarkdown (yamlLoad : YamlLoad) (content : PyStr) : Except ParseErr MarkdownDoc :=
  if pyStartsWith content (ps "---") then
    match pySplit2 (ps "---") content with
    | _ :: p1 :: p2 :: _ =>
      match yamlLoad p1 with
      | .error _ => .error .yamlError
      | .ok none => .error .nonMappingFrontmatter
      | .ok (some fm) =>
        let markdown_content := pyStrip p2
        match requiredFields.find? (fun f => ¬ (fm.map Prod.fst).contains f) with
        | some f => .error (.missingField f)
        | none =>
          let sections := parseSections markdown_content
          .ok { frontmatter := applyStyleDefaults fm,
                content := (lookupLast sections (ps "main")).getD [],
                why_i_like_it := (lookupLast sections (ps "why_i_like_it")).getD [],
                all_sections := sections }
    | _ => .error .invalidFormat
  else .error .noFrontmatter

/-- Index of the last "." in a file name, if any. -/
def lastDotIdx (name : PyStr) : Option Nat :=
  match name.reverse.findIdx? (fun c => c = '.') with
  | some j => some (name.length - 1 - j)
  | none => none

/-- Suffix-stripping rule of Python `PurePath.stem` applied to a file
name: the name up to its last ".", provided that dot is neither the
leading character nor the final character. -/
def stemOfName (name : PyStr) : PyStr :=
  match lastDotIdx name with
  | some i => if 0 < i ∧ i < name.length - 1 then name.take i else name
  | none => name

/-- Python `Path(p).stem`: the last path component (empty-string and "."
components dropped, as pathlib does) without its final suffix. -/
def pathStem (p : PyStr) : PyStr :=
  let comps := (pySplit (ps "/") p).filter (fun c => c ≠ [] ∧ c ≠ ps ".")
  stemOfName (comps.getLastD [])

/-- Base-filename normalization shared by
ContentParser._get_base_filename_from_content_file and
ImageGenerator.get_base_filename_from_content: strip the fixed content
directory prefix and the ".md" extension, falling back to the path stem
(or "unknown" for an empty path). -/
def getBaseFilenameFromContentFile (content_file : PyStr) : PyStr :=
  if pyStartsWith content_file (ps "content/inspiration/") then
    pyReplace (pyReplace content_file (ps "content/inspiration/") []) (ps ".md") []
  else if content_file ≠ [] then pathStem content_file
  else ps "unknown"

/-- One entry of generated/all_content.json as read back by
ImageGenerator: the fields check_new_styles consumes.  `style_name` is
`none` when the key is absent (the source then defaults it to
"unknown"); `content_changed` defaults to false the same way. -/
structure ContentJson where
  content_file : PyStr
  title : PyStr
  author : PyStr
  style_name : Option PyStr
  content_changed : Bool

/-- ImageGenerator.generate_image_filename. -/
def generateImageFilename (c : ContentJson) (v : Nat) : PyStr :=
  getBaseFilenameFromContentFile c.content_file ++ ps "_v" ++ natToStr v ++ ps ".png"

/-- Sidecar filename for an image filename
(ImageGenerator's `img_file.name.replace(".png", "_metadata.json")`). -/
def metaNameFor (imgName : PyStr) : PyStr :=
  pyReplace imgName (ps ".png") (ps "_metadata.json")

/-- The `existing_metadata` map built at the top of
ImageGenerator.check_new_styles: for every image file on disk whose
sidecar exists, the sidecar's recorded style name (default "unknown")
and approach (default "artistic").  A sidecar that fails `json.load`
or holds a non-dict `style` value makes the source raise, which is the
`.error` outcome. -/
def buildExistingMetadata (metaDir : List (PyStr × Except Unit J)) :
    List PyStr → Except Unit (List (PyStr × J × J))
  | [] => .ok []
  | img :: rest =>
    match lookupLast metaDir (metaNameFor img) with
    | none => buildExistingMetadata metaDir rest
    | some (.error _) => .error ()
    | some (.ok mv) =>
      match pyGet mv (ps "style") (.jobj []) with
      | .error e => .error e
      | .ok s1 =>
        match pyGet s1 (ps "name") (.jstr (ps "unknown")) with
        | .error e => .error e
        | .ok n =>
          match pyGet mv (ps "style") (.jobj []) with
          | .error e => .error e
          | .ok s2 =>
            match pyGet s2 (ps "approach") (.jstr (ps "artistic")) with
            | .error e => .error e
            | .ok a =>
              match buildExistingMetadata metaDir rest with
              | .error e => .error e
              | .ok rest' => .ok ((img, n, a) :: rest')

/-- One entry of the needs_generation list of
ImageGenerator.check_new_styles (`gtype` embeds the "type" key). -/
structure GenItem where
  title : PyStr
  author : PyStr
  filename : PyStr
  reason : PyStr
  expected_style : PyStr
  existing_style : Option J
  gtype : PyStr

/-- The expected image filename for variation `v` of a content piece, as
check_new_styles builds it: the base filename (the v1 name with the
"_v1.png" tail removed by `str.replace`) followed by the variation
suffix. -/
def expectedVName (c : ContentJson) (v : Nat) : PyStr :=
  pyReplace (generateImageFilename c 1) (ps "_v1.png") []
    ++ ps "_v" ++ natToStr v ++ ps ".png"

/-- The per-content-item body of the check_new_styles loop: the item
appended to needs_generation for this content piece, or `none` when the
piece is current.  The v1 sidecar style comparison happens inside the
source's loop over variations 1..N, so it only takes place when
1 ≤ N. -/
def classifyContent (N : Nat) (imageNames : List PyStr) (em : List (PyStr × J × J))
    (c : ContentJson) : Option GenItem :=
  let variations_exist :=
    ((List.range N).map (fun i => i + 1)).filter
      (fun v => imageNames.contains (expectedVName c v))
  let current_style := c.style_name.getD (ps "unknown")
  let style_mismatch :=
    decide (1 ≤ N) && imageNames.contains (expectedVName c 1) &&
      (match lookupLast em (expectedVName c 1) with
       | some (n, _) => pyNeStr n current_style
       | none => false)
  let filename := getBaseFilenameFromContentFile c.content_file
  if variations_exist.isEmpty then
    some ⟨c.title, c.author, filename, ps "no_images", current_style, none, ps "new"⟩
  else if c.content_changed then
    some ⟨c.title, c.author, filename, ps "content_change", current_style, none, ps "update"⟩
  else if style_mismatch then
    let existing_style :=
      ((lookupLast em (expectedVName c 1)).map (fun p => p.1)).getD (.jstr (ps "unknown"))
    some ⟨c.title, c.author, filename, ps "style_change", current_style, some existing_style,
          ps "update"⟩
  else none

/-- Result of ImageGenerator.check_new_styles. -/
structure CheckResult where
  existing_images : Nat
  content_pieces : Nat
  needs_generation : List GenItem

/-- ImageGenerator.check_new_styles over the parsed content list, the
image file names on disk, and the sidecar metadata directory. -/
def checkNewStyles (N : Nat) (contentList : List ContentJson) (imageNames : List PyStr)
    (metaDir : List (PyStr × Except Unit J)) : Except Unit CheckResult :=
  match buildExistingMetadata metaDir imageNames with
  | .error e => .error e
  | .ok em =>
    .ok ⟨imageNames.length, contentList.length,
         contentList.filterMap (classifyContent N imageNames em)⟩

/-- A file on disk: name and byte size. -/
structure FileEntry where
  name : PyStr
  size : Nat

/-- One orphaned-file record of identify_orphaned_images. -/
structure OrphanItem where
  filename : PyStr
  reason : PyStr

/-- The expected artifact file names for the current content list:
image plus sidecar for every variation 1..N of every content identity. -/
def expectedFiles (N : Nat) (contentList : List ContentJson) : List PyStr :=
  contentList.flatMap (fun c =>
    (List.range N).flatMap (fun i =>
      let base := getBaseFilenameFromContentFile c.content_file
      [base ++ ps "_v" ++ natToStr (i + 1) ++ ps ".png",
       base ++ ps "_v" ++ natToStr (i + 1) ++ ps "_metadata.json"]))

/-- Base identity extracted from an orphan image name by
identify_orphaned_images: the stem, with everything from its last "_v"
stripped when "_v" occurs. -/
def baseNameOf (imgName : PyStr) : PyStr :=
  let stem := pathStem imgName
  if pyHasSub stem (ps "_v") then pyRsplitPre (ps "_v") stem else stem

/-- Reason string recorded for an excess variation. -/
def excessReason (N : Nat) : PyStr :=
  ps "excess variation (need only " ++ natToStr N ++ ps ")"

/-- The orphan-classification loop of identify_orphaned_images: returns
(missing_content, excess_variations, accumulated byte size). -/
def classifyOrphans (N : Nat) (bases expected : List PyStr) :
    List FileEntry → (List OrphanItem × List OrphanItem × Nat)
  | [] => ([], [], 0)
  | f :: rest =>
    let r := classifyOrphans N bases expected rest
    if expected.contains f.name then r
    else if bases.contains (baseNameOf f.name) then
      (r.1, ⟨f.name, excessReason N⟩ :: r.2.1, r.2.2 + f.size)
    else
      (⟨f.name, ps "content file missing"⟩ :: r.1, r.2.1, r.2.2 + f.size)

/-- Result of ImageGenerator.identify_orphaned_images
(`total_size` keeps the byte total whose display formatting the source
derives from it). -/
structure OrphanResult where
  missing_content : List OrphanItem
  excess_variations : List OrphanItem
  orphaned_metadata : List PyStr
  total_orphaned : Nat
  total_metadata_orphaned : Nat
  total_size : Nat
  variations_per_content : Nat

/-- ImageGenerator.identify_orphaned_images. -/
def identifyOrphanedImages (N : Nat) (contentList : List ContentJson)
    (images : List FileEntry) (metaNames : List PyStr) : OrphanResult :=
  let expected := expectedFiles N contentList
  let bases := contentList.map (fun c => getBaseFilenameFromContentFile c.content_file)
  let r := classifyOrphans N bases expected images
  let om := metaNames.filter (fun m => ¬ expected.contains m)
  ⟨r.1, r.2.1, om, r.1.length + r.2.1.length, om.length, r.2.2, N⟩

/-- The image_generation section of config.json, with monetary amounts
as exact rationals. -/
structure ImageGenConfig where
  variations_per_content : Nat
  cost_per_image : ℚ

/-- load_config in generate_images.py: the parsed config file, or the
hardcoded defaults (3 variations, 0.039 per image) when the file is
absent. -/
def loadConfig (configFile : Option ImageGenConfig) : ImageGenConfig :=
  configFile.getD ⟨3, 39 / 1000⟩

/-- The `variations_per_content` field ImageGenerator.__init__ takes
from the loaded configuration. -/
def initVariationsPerContent (configFile : Option ImageGenConfig) : Nat :=
  (loadConfig configFile).variations_per_content

/-- The effective `cost_per_image` after ImageGenerator.__init__: the
constructor first copies the configured value (line 47) and then
unconditionally reassigns the hardcoded 0.039 (line 66), so the
configured value is discarded and the effective cost is always 0.039. -/
def initCostPerImage (_configFile : Option ImageGenConfig) : ℚ := 39 / 1000

/-- Result of ImageGenerator.preview_analysis. -/
structure PreviewStats where
  content_pieces : Nat
  existing_images : Nat
  new_pieces : Nat
  update_pieces : Nat
  total_pieces : Nat
  total_images : Nat
  total_cost : ℚ
  cost_per_image : ℚ
  variations_per_content : Nat
  new_images_list : List GenItem
  updates_list : List GenItem
  needs_generation : Bool

/-- The cost/derivation part of ImageGenerator.preview_analysis, applied
to a check_new_styles result. -/
def previewAnalysis (configFile : Option ImageGenConfig) (check : CheckResult) : PreviewStats :=
  let needs := check.needs_generation
  let new_images := needs.filter (fun it => it.gtype == ps "new")
  let updates := needs.filter (fun it => it.gtype == ps "update")
  let new_pieces := new_images.length
  let update_pieces := updates.length
  let total_pieces := new_pieces + update_pieces
  let total_images := total_pieces * initVariationsPerContent configFile
  let total_cost := (total_images : ℚ) * initCostPerImage configFile
  ⟨check.content_pieces, check.existing_images, new_pieces, update_pieces, total_pieces,
   total_images, total_cost, initCostPerImage configFile, initVariationsPerContent configFile,
   new_images, updates, total_pieces > 0⟩

/-- ImageGenerator.preview_analysis end to end: check_new_styles with
the configured variation count, then the cost derivation. -/
def previewAnalysisRun (configFile : Option ImageGenConfig) (contentList : List ContentJson)
    (imageNames : List PyStr) (metaDir : List (PyStr × Except Unit J)) :
    Except Unit PreviewStats :=
  match checkNewStyles (initVariationsPerContent configFile) contentList imageNames metaDir with
  | .error e => .error e
  | .ok check => .ok (previewAnalysis configFile check)

/-- The filesystem state cleanup_orphaned_images acts on: the image
directory, the sidecar metadata directory (only names matter to
cleanup), and the archive directory contents. -/
structure DiskState where
  images : List FileEntry
  metaNames : List PyStr
  archive : List PyStr

/-- One entry of the files_to_remove work list built by
cleanup_orphaned_images. -/
structure RemovalItem where
  name : PyStr
  ftype : PyStr
  reason : PyStr

/-- Result dictionary of cleanup_orphaned_images; keys the source omits
on a given code path keep their default values here. -/
structure CleanupResult where
  status : PyStr
  files_to_remove : List RemovalItem := []
  removed_images : List PyStr := []
  removed_metadata : List PyStr := []
  errors : List PyStr := []
  archive_location : Option PyStr := none
  space_saved_bytes : Nat := 0

/-- The files_to_remove work list: orphaned images still present on
disk, then orphaned sidecar files still present on disk. -/
def filesToRemove (orph : OrphanResult) (st : DiskState) : List RemovalItem :=
  ((orph.missing_content ++ orph.excess_variations).filter
      (fun it => st.images.any (fun e => e.name == it.filename))).map
    (fun it => ⟨it.filename, ps "image", it.reason⟩)
  ++ (orph.orphaned_metadata.filter (fun m => st.metaNames.contains m)).map
    (fun m => ⟨m, ps "metadata", ps "orphaned metadata"⟩)

/-- Effect of `Path.unlink` on the modelled state. -/
def deleteFile (st : DiskState) (f : RemovalItem) : DiskState :=
  if f.ftype = ps "image" then
    { st with images := st.images.filter (fun e => e.name != f.name) }
  else
    { st with metaNames := st.metaNames.filter (fun m => m != f.name) }

/-- The deletion loop of cleanup_orphaned_images: every entry is
attempted; an entry whose unlink raises (modelled by membership in
`failSet`) contributes an error message and nothing else, and the loop
continues.  Returns (removed_images, removed_metadata, errors, state). -/
def removeLoop (failSet : List PyStr) :
    List RemovalItem → DiskState → (List PyStr × List PyStr × List PyStr × DiskState)
  | [], st => ([], [], [], st)
  | f :: rest, st =>
    if failSet.contains f.name then
      let r := removeLoop failSet rest st
      (r.1, r.2.1, (ps "Failed to remove " ++ f.name) :: r.2.2.1, r.2.2.2)
    else
      let r := removeLoop failSet rest (deleteFile st f)
      if f.ftype = ps "image" then (f.name :: r.1, r.2.1, r.2.2.1, r.2.2.2)
      else (r.1, f.name :: r.2.1, r.2.2.1, r.2.2.2)

/-- ImageGenerator.cleanup_orphaned_images.  The archive step copies the
doomed files into a timestamped folder, modelled by appending their
names to the archive component (the timestamp itself is environment
data and elided).  `failSet` holds the names whose deletion raises. -/
def cleanupOrphanedImages (N : Nat) (contentList : List ContentJson) (st : DiskState)
    (dry_run archive_before_delete : Bool) (failSet : List PyStr) :
    CleanupResult × DiskState :=
  let orph := identifyOrphanedImages N contentList st.images st.metaNames
  if orph.total_orphaned = 0 ∧ orph.total_metadata_orphaned = 0 then
    ({ status := ps "no_action_needed" }, st)
  else
    let files := filesToRemove orph st
    if dry_run then
      ({ status := ps "dry_run", files_to_remove := files,
         space_saved_bytes := orph.total_size,
         archive_location :=
           if archive_before_delete then some (ps "would create archive") else none }, st)
    else
      let archived := archive_before_delete && !files.isEmpty
      let st1 :=
        if archived then { st with archive := st.archive ++ files.map (fun f => f.name) }
        else st
      let r := removeLoop failSet files st1
      ({ status := if r.2.2.1 = [] then ps "completed" else ps "completed_with_errors",
         removed_images := r.1, removed_metadata := r.2.1, errors := r.2.2.1,
         archive_location := if archived then some (ps "cleanup_archive") else none,
         space_saved_bytes := orph.total_size }, r.2.2.2)

/-- The variation-1 sidecar record written by ImageGenerator.save_metadata,
restricted to the fields the reconciler reads back on the next run: the
recorded style name and approach and the body text at generation time
(title, author, timestamps, prompt and cost records are written too but
never read back by get_stable_style_for_content). -/
def mkSidecarMeta (name approach : J) (quote_text : PyStr) : J :=
  .jobj [(ps "content", .jobj [(ps "quote_text", .jstr quote_text)]),
         (ps "style", .jobj [(ps "name", name), (ps "approach", approach)])]

/-- One pipeline run for a single content identity: reconcile the style
against the current sidecar, then persist a fresh sidecar recording the
chosen assignment and the current body text (as the generation stage
does via save_metadata). -/
def runReconcile (sd : StylesData) (st : Option (Except Unit J))
    (text sc ss : PyStr) (r : Nat) :
    Except Unit ((J × J × Bool) × Option (Except Unit J)) :=
  match getStableStyleForContent sd st text sc ss r with
  | .ok res => .ok (res, some (.ok (mkSidecarMeta res.1 res.2.1 text)))
  | .error e => .error e

/-- Iterated pipeline runs with unchanged body text: run `k + 1` times
from the initial sidecar state, threading the persisted sidecar and an
arbitrary stream `rs` of random draws. -/
def runReconcileSeq (sd : StylesData) (st0 : Option (Except Unit J))
    (text sc ss : PyStr) (rs : Nat → Nat) :
    Nat → Except Unit ((J × J × Bool) × Option (Except Unit J))
  | 0 => runReconcile sd st0 text sc ss (rs 0)
  | k + 1 =>
    match runReconcileSeq sd st0 text sc ss rs k with
    | .ok (_, st) => runReconcile sd st text sc ss (rs (k + 1))
    | .error e => .error e

/-- The style catalog records no style under the empty-string name (an
empty-string key would be a Python-falsy style name, which the stability
guard treats like a missing one). -/
def noEmptyStyleNames (sd : StylesData) : Prop :=
  [] ∉ sd.painting_technique_styles ∧ [] ∉ sd.visual_storytelling_techniques

/-- Concrete style library used by the witness instantiations. -/
def sdW : StylesData := ⟨[ps "p1", ps "p2"], [ps "s1"]⟩

/-- Concrete fields of a well-formed variation-1 sidecar recording style
"p1" / "painting_technique" and body text "T" (witness fixture). -/
def styleFieldsW : List (PyStr × J) :=
  [(ps "name", .jstr (ps "p1")), (ps "approach", .jstr (ps "painting_technique"))]

/-- Concrete content fields of the same sidecar (witness fixture). -/
def contentFieldsW : List (PyStr × J) := [(ps "quote_text", .jstr (ps "T"))]

/-- Concrete top-level fields of the same sidecar (witness fixture). -/
def metaFieldsW : List (PyStr × J) :=
  [(ps "content", .jobj contentFieldsW), (ps "style", .jobj styleFieldsW)]

/-- Sidecar fields recording body text "OLDTEXT" (witness fixture for
change detection). -/
def mChangedW : List (PyStr × J) :=
  [(ps "style", .jobj styleFieldsW),
   (ps "content", .jobj [(ps "quote_text", .jstr (ps "OLDTEXT"))])]

/-- Sidecar fields whose style object lacks a recorded name (witness
fixture for the incomplete-sidecar behaviour). -/
def mNoNameW : List (PyStr × J) :=
  [(ps "style", .jobj [(ps "approach", .jstr (ps "painting_technique"))]),
   (ps "content", .jobj [(ps "quote_text", .jstr (ps "T"))])]

/-- An empty style library (witness fixture for fallback behaviour). -/
def sdEmptyW : StylesData := ⟨[], []⟩

/-- A frontmatter mapping with the three required keys and no style
keys (witness fixture for parse_markdown). -/
def fmW : List (PyStr × J) :=
  [(ps "title", .jstr (ps "t")), (ps "author", .jstr (ps "a")),
   (ps "type", .jstr (ps "quote"))]

/-- A yaml loader returning the fixture mapping for any input (witness
fixture for parse_markdown). -/
def yamlW : YamlLoad := fun _ => .ok (some fmW)

/-- A minimal well-formed source file text (witness fixture). -/
def contentW : PyStr := ps "---X---Body"

/-- Content item with identity "real" whose fresh style is "newstyle"
(fixture for the differ). -/
def cRealW : ContentJson :=
  ⟨ps "content/inspiration/real.md", ps "Real", ps "Auth", some (ps "newstyle"), false⟩

/-- Synthetic inventory scenario: item A with no artifacts. -/
def cAW : ContentJson :=
  ⟨ps "content/inspiration/aaa.md", ps "A", ps "a", some (ps "styleA"), false⟩

/-- Synthetic inventory scenario: item B, current. -/
def cBW : ContentJson :=
  ⟨ps "content/inspiration/bbb.md", ps "B", ps "b", some (ps "styleB"), false⟩

/-- Synthetic inventory scenario: item C with a style mismatch on v1. -/
def cCW : ContentJson :=
  ⟨ps "content/inspiration/ccc.md", ps "C", ps "c", some (ps "styleC"), false⟩

/-- Image files on disk for the synthetic scenario: all variations of B
and C, none of A. -/
def imagesABC : List PyStr :=
  [ps "bbb_v1.png", ps "bbb_v2.png", ps "bbb_v3.png",
   ps "ccc_v1.png", ps "ccc_v2.png", ps "ccc_v3.png"]

/-- Sidecar directory for the synthetic scenario: B's v1 records its
current style, C's v1 records the superseded style "old". -/
def metaABC : List (PyStr × Except Unit J) :=
  [(ps "bbb_v1_metadata.json",
    .ok (.jobj [(ps "style", .jobj [(ps "name", .jstr (ps "styleB")),
                                    (ps "approach", .jstr (ps "painting_technique"))])])),
   (ps "ccc_v1_metadata.json",
    .ok (.jobj [(ps "style", .jobj [(ps "name", .jstr (ps "old")),
                                    (ps "approach", .jstr (ps "painting_technique"))])]))]

/-- The metadata map check_new_styles builds for the synthetic
scenario. -/
def emABC : List (PyStr × J × J) :=
  [(ps "bbb_v1.png", .jstr (ps "styleB"), .jstr (ps "painting_technique")),
   (ps "ccc_v1.png", .jstr (ps "old"), .jstr (ps "painting_technique"))]

/-- The check_new_styles result for the synthetic scenario. -/
def resABC : CheckResult :=
  ⟨6, 3,
   [⟨ps "A", ps "a", ps "aaa", ps "no_images", ps "styleA", none, ps "new"⟩,
    ⟨ps "C", ps "c", ps "ccc", ps "style_change", ps "styleC", some (.jstr (ps "old")),
     ps "update"⟩]⟩

/-- A single needs-generation entry of type "new" (fixture for the cost
preview). -/
def newItemW : GenItem :=
  ⟨ps "T", ps "A", ps "graham_make_something", ps "no_images", ps "style", none, ps "new"⟩

/-- Disk images for the orphan scenario: ghost_v1.png matches no
content identity, real_v5.png exceeds the variation range of "real". -/
def imagesOrphW : List FileEntry := [⟨ps "ghost_v1.png", 10⟩, ⟨ps "real_v5.png", 20⟩]

/-- Sidecar names on disk for the orphan scenario. -/
def metaOrphW : List PyStr := [ps "ghost_v1_metadata.json"]

/-- Disk state for the cleanup scenarios: two orphan images and one
orphan sidecar, empty archive. -/
def stW : DiskState := ⟨imagesOrphW, metaOrphW, []⟩

/-! Theorems. -/

lemma pyChoice_of_ne_nil {α : Type} (l : List α) (r : Nat) (h : l ≠ []) :
    ∃ a, pyChoice l r = some a ∧ a ∈ l := by
  have hlen : 0 < l.length := List.length_pos.mpr h
  have hlt : r % l.length < l.length := Nat.mod_lt _ hlen
  exact ⟨l.get ⟨r % l.length, hlt⟩, List.get?_eq_get hlt, List.get_mem _ _ _⟩

lemma getRandomStyle_spec (sd : StylesData) (cat : PyStr) (r : Nat) :
    ∃ n, getRandomStyle sd cat r = some n
      ∧ (n ∈ sd.painting_technique_styles ∨ n ∈ sd.visual_storytelling_techniques
          ∨ n = ps "turner-atmospheric") := by
  unfold getRandomStyle
  by_cases h1 : cat = ps "painting_technique"
  · simp only [h1, if_pos rfl]
    by_cases h : sd.painting_technique_styles = []
    · exact ⟨ps "turner-atmospheric", by simp [h], Or.inr (Or.inr rfl)⟩
    · obtain ⟨a, ha, hmem⟩ := pyChoice_of_ne_nil sd.painting_technique_styles r h
      exact ⟨a, by simp [h, ha], Or.inl hmem⟩
  · rw [if_neg h1]
    by_cases h2 : cat = ps "visual_storytelling"
    · rw [if_pos h2]
      by_cases h : sd.visual_storytelling_techniques = []
      · exact ⟨ps "turner-atmospheric", by simp [h], Or.inr (Or.inr rfl)⟩
      · obtain ⟨a, ha, hmem⟩ := pyChoice_of_ne_nil sd.visual_storytelling_techniques r h
        exact ⟨a, by simp [h, ha], Or.inr (Or.inl hmem)⟩
    · rw [if_neg h2]
      exact ⟨ps "turner-atmospheric", by simp, Or.inr (Or.inr rfl)⟩

lemma getRandomStyle_empty (sd : StylesData) (cat : PyStr) (r : Nat)
    (h : (cat = ps "painting_technique" ∧ sd.painting_technique_styles = [])
      ∨ (cat = ps "visual_storytelling" ∧ sd.visual_storytelling_techniques = [])) :
    getRandomStyle sd cat r = some (ps "turner-atmospheric") := by
  unfold getRandomStyle
  rcases h with ⟨hcat, hempty⟩ | ⟨hcat, hempty⟩
  · subst hcat; simp [hempty]
  · subst hcat
    have hne : ¬ (ps "visual_storytelling" = ps "painting_technique") := by decide
    simp [hne, hempty]

lemma selectStyle_spec (sd : StylesData) (sc ss : PyStr) (r : Nat) :
    ∃ n c, selectStyle sd sc ss r = some (n, c)
      ∧ (n ∈ sd.painting_technique_styles ∨ n ∈ sd.visual_storytelling_techniques
          ∨ n = ps "turner-atmospheric")
      ∧ (c = ps "painting_technique" ∨ c = ps "visual_storytelling") := by
  unfold selectStyle
  by_cases hr : sc = ps "random"
  · rw [if_pos hr]
    set all_styles := sd.painting_technique_styles.map (fun s => (s, ps "painting_technique"))
      ++ sd.visual_storytelling_techniques.map (fun s => (s, ps "visual_storytelling")) with hall
    by_cases h : all_styles = []
    · refine ⟨ps "turner-atmospheric", ps "painting_technique", by simp [h], ?_, Or.inl rfl⟩
      exact Or.inr (Or.inr rfl)
    · obtain ⟨⟨n, c⟩, ha, hmem⟩ := pyChoice_of_ne_nil all_styles r h
      refine ⟨n, c, by simp [h, ha], ?_, ?_⟩
      · rw [hall] at hmem
        rcases List.mem_append.mp hmem with hm | hm
        · obtain ⟨x, hx, hxe⟩ := List.mem_map.mp hm
          exact Or.inl (by cases hxe; exact hx)
        · obtain ⟨x, hx, hxe⟩ := List.mem_map.mp hm
          exact Or.inr (Or.inl (by cases hxe; exact hx))
      · rw [hall] at hmem
        rcases List.mem_append.mp hmem with hm | hm
        · obtain ⟨x, _, hxe⟩ := List.mem_map.mp hm
          exact Or.inl (by cases hxe; rfl)
        · obtain ⟨x, _, hxe⟩ := List.mem_map.mp hm
          exact Or.inr (by cases hxe; rfl)
  · rw [if_neg hr]
    by_cases hk : sc = ps "painting_technique" ∨ sc = ps "visual_storytelling"
    · rw [if_pos hk]
      by_cases hsr : ss = ps "random"
      · rw [if_pos hsr]
        obtain ⟨n, hn, hcase⟩ := getRandomStyle_spec sd sc r
        exact ⟨n, sc, by simp [hn], hcase, hk⟩
      · rw [if_neg hsr]
        by_cases hv : validateStyleInCategory sd ss sc = true
        · rw [if_pos hv]
          refine ⟨ss, sc, rfl, ?_, hk⟩
          unfold validateStyleInCategory at hv
          rcases hk with hc | hc
          · rw [if_pos hc] at hv
            exact Or.inl (by simpa using hv)
          · subst hc
            rw [if_neg (by decide), if_pos rfl] at hv
            exact Or.inr (Or.inl (by simpa using hv))
        · rw [if_neg hv]
          obtain ⟨n, hn, hcase⟩ := getRandomStyle_spec sd sc r
          exact ⟨n, sc, by simp [hn], hcase, hk⟩
    · rw [if_neg hk]
      obtain ⟨n, hn, hcase⟩ := getRandomStyle_spec sd (ps "painting_technique") r
      exact ⟨n, ps "painting_technique", by simp [hn], hcase, Or.inl rfl⟩

lemma selectStyle_truthy (sd : StylesData) (hne : noEmptyStyleNames sd)
    {sc ss : PyStr} {r : Nat} {n c : PyStr}
    (h : selectStyle sd sc ss r = some (n, c)) : n ≠ [] ∧ c ≠ [] := by
  obtain ⟨n', c', hsel, hn, hc⟩ := selectStyle_spec sd sc ss r
  rw [h] at hsel
  have hp : (n, c) = (n', c') := Option.some.inj hsel
  have h1 : n = n' := congrArg Prod.fst hp
  have h2 : c = c' := congrArg Prod.snd hp
  rw [← h1] at hn
  rw [← h2] at hc
  constructor
  · rcases hn with hm | hm | hm
    · exact fun he => hne.1 (he ▸ hm)
    · exact fun he => hne.2 (he ▸ hm)
    · subst hm; decide
  · rcases hc with hm | hm <;> (subst hm; decide)

/-- C3: select_style on the unknown category "nonexistent_category"
never raises and returns a pair drawn from the default category
painting_technique (the fixed fallback name when that category is
empty); and on a known category whose style set is empty it returns the
fixed fallback style name "turner-atmospheric" instead of crashing. -/
theorem c3_fallback_safety (sd : StylesData) (ss : PyStr) (r : Nat) :
    (∃ n, selectStyle sd (ps "nonexistent_category") ss r = some (n, ps "painting_technique")
      ∧ (n ∈ sd.painting_technique_styles
          ∨ (sd.painting_technique_styles = [] ∧ n = ps "turner-atmospheric")))
    ∧ (∀ cat spec2,
        (cat = ps "painting_technique" ∧ sd.painting_technique_styles = [])
          ∨ (cat = ps "visual_storytelling" ∧ sd.visual_storytelling_techniques = []) →
        selectStyle sd cat spec2 r = some (ps "turner-atmospheric", cat)) := by
  constructor
  · unfold selectStyle
    rw [if_neg (by decide), if_neg (by decide)]
    unfold getRandomStyle
    rw [if_pos rfl]
    by_cases h : sd.painting_technique_styles = []
    · exact ⟨ps "turner-atmospheric", by simp [h], Or.inr ⟨h, rfl⟩⟩
    · obtain ⟨a, ha, hmem⟩ := pyChoice_of_ne_nil sd.painting_technique_styles r h
      exact ⟨a, by simp [h, ha], Or.inl hmem⟩
  · intro cat spec2 hcase
    have hcat : cat = ps "painting_technique" ∨ cat = ps "visual_storytelling" := by
      rcases hcase with ⟨h, _⟩ | ⟨h, _⟩
      · exact Or.inl h
      · exact Or.inr h
    have hnr : ¬ cat = ps "random" := by
      rcases hcat with h | h <;> (subst h; decide)
    unfold selectStyle
    rw [if_neg hnr, if_pos hcat]
    have hfall := getRandomStyle_empty sd cat r hcase
    by_cases hsr : spec2 = ps "random"
    · rw [if_pos hsr, hfall]; rfl
    · rw [if_neg hsr]
      have hval : validateStyleInCategory sd spec2 cat = false := by
        unfold validateStyleInCategory
        rcases hcase with ⟨h, he⟩ | ⟨h, he⟩
        · subst h; simp [he]
        · subst h; rw [if_neg (by decide), if_pos rfl]; simp [he]
      rw [if_neg (by simp [hval]), hfall]; rfl

lemma freshDraw_ok (sd : StylesData) (sc ss : PyStr) (r : Nat) (b : Bool) :
    ∃ n c, selectStyle sd sc ss r = some (n, c)
      ∧ freshDraw sd sc ss r b = .ok (.jstr n, .jstr c, b) := by
  obtain ⟨n, c, hsel, _, _⟩ := selectStyle_spec sd sc ss r
  exact ⟨n, c, hsel, by unfold freshDraw; rw [hsel]⟩

lemma freshDraw_inv (sd : StylesData) {sc ss : PyStr} {r : Nat} {b : Bool} {res : J × J × Bool}
    (h : freshDraw sd sc ss r b = .ok res) :
    ∃ n c, selectStyle sd sc ss r = some (n, c) ∧ res = (.jstr n, .jstr c, b) := by
  obtain ⟨n, c, hsel, hfd⟩ := freshDraw_ok sd sc ss r b
  rw [hfd] at h
  exact ⟨n, c, hsel, (Except.ok.inj h).symm⟩

lemma getStable_mkSidecar (sd : StylesData) (n a : J) (text sc ss : PyStr) (r : Nat)
    (hn : truthy n = true) (ha : truthy a = true) :
    getStableStyleForContent sd (some (.ok (mkSidecarMeta n a text))) text sc ss r
      = .ok (n, a, false) := by
  have e1 : ¬ (ps "style" = ps "content") := by decide
  have e2 : ¬ (ps "approach" = ps "name") := by decide
  simp [getStableStyleForContent, mkSidecarMeta, pyGet, jLookup, lookupLast, pyNeStr,
        hn, ha, e1, e2]

lemma getStable_ok_truthy (sd : StylesData) (hne : noEmptyStyleNames sd)
    {st : Option (Except Unit J)} {text sc ss : PyStr} {r : Nat} {res : J × J × Bool}
    (h : getStableStyleForContent sd st text sc ss r = .ok res) :
    truthy res.1 = true ∧ truthy res.2.1 = true := by
  have hfresh : ∀ (b : Bool), freshDraw sd sc ss r b = .ok res →
      truthy res.1 = true ∧ truthy res.2.1 = true := by
    intro b hf
    obtain ⟨n, c, hsel, rfl⟩ := freshDraw_inv sd hf
    obtain ⟨h1, h2⟩ := selectStyle_truthy sd hne hsel
    exact ⟨by simpa [truthy] using h1, by simpa [truthy] using h2⟩
  cases st with
  | none =>
    simp only [getStableStyleForContent] at h
    exact hfresh false h
  | some e =>
    cases e with
    | error u =>
      simp only [getStableStyleForContent] at h
      exact hfresh false h
    | ok metadata =>
      simp only [getStableStyleForContent] at h
      cases h1 : pyGet metadata (ps "style") (.jobj []) with
      | error e => simp only [h1] at h; exact Except.noConfusion h
      | ok s1 =>
      simp only [h1] at h
      cases h2 : pyGet s1 (ps "name") J.jnull with
      | error e => simp only [h2] at h; exact Except.noConfusion h
      | ok existing_style =>
      simp only [h2] at h
      cases h3 : pyGet s1 (ps "approach") J.jnull with
      | error e => simp only [h3] at h; exact Except.noConfusion h
      | ok existing_approach =>
      simp only [h3] at h
      cases h4 : pyGet metadata (ps "content") (.jobj []) with
      | error e => simp only [h4] at h; exact Except.noConfusion h
      | ok c1 =>
      simp only [h4] at h
      cases h5 : pyGet c1 (ps "quote_text") (.jstr []) with
      | error e => simp only [h5] at h; exact Except.noConfusion h
      | ok existing_content =>
      simp only [h5] at h
      split at h
      · exact hfresh true h
      · split at h
        · rename_i hguard
          obtain rfl := (Except.ok.inj h).symm
          simp only [Bool.and_eq_true] at hguard
          exact ⟨hguard.1, hguard.2⟩
        · exact hfresh false h

lemma runReconcileSeq_succ (sd : StylesData) (st0 : Option (Except Unit J))
    (text sc ss : PyStr) (rs : Nat → Nat) (k : Nat) :
    runReconcileSeq sd st0 text sc ss rs (k + 1)
      = match runReconcileSeq sd st0 text sc ss rs k with
        | .ok (_, st) => runReconcile sd st text sc ss (rs (k + 1))
        | .error e => .error e := rfl

lemma runReconcile_ok (sd : StylesData) {st : Option (Except Unit J)} {text sc ss : PyStr}
    {r : Nat} {res : J × J × Bool} {st' : Option (Except Unit J)}
    (h : runReconcile sd st text sc ss r = .ok (res, st')) :
    getStableStyleForContent sd st text sc ss r = .ok res
      ∧ st' = some (.ok (mkSidecarMeta res.1 res.2.1 text)) := by
  unfold runReconcile at h
  cases hg : getStableStyleForContent sd st text sc ss r with
  | error e => rw [hg] at h; exact Except.noConfusion h
  | ok res0 =>
    rw [hg] at h
    have hp := Except.ok.inj h
    have h1 : res = res0 := (congrArg Prod.fst hp).symm
    have h2 : st' = some (Except.ok (mkSidecarMeta res0.1 res0.2.1 text)) :=
      (congrArg Prod.snd hp).symm
    constructor
    · rw [h1]
    · exact h2.trans (by rw [h1])

/-- C1: when the variation-1 sidecar exists, parses, and records both a
(Python-truthy) style name and approach together with a body text equal
to the current body text, get_stable_style_for_content returns exactly
the recorded pair with contentChanged = false; consequently, re-running
the reconcile-and-persist pipeline any number of times with unchanged
body text returns the identical assignment after the first run, with
contentChanged = false from then on. -/
theorem c1_stable_style_and_idempotence
    (sd : StylesData) (m s c : List (PyStr × J)) (nm ap text sc ss : PyStr) (r : Nat)
    (hs : jLookup m (ps "style") = some (.jobj s))
    (hn : jLookup s (ps "name") = some (.jstr nm)) (hnm : nm ≠ [])
    (ha : jLookup s (ps "approach") = some (.jstr ap)) (hap : ap ≠ [])
    (hc : jLookup m (ps "content") = some (.jobj c))
    (hq : jLookup c (ps "quote_text") = some (.jstr text)) :
    getStableStyleForContent sd (some (.ok (.jobj m))) text sc ss r
      = .ok (.jstr nm, .jstr ap, false)
    ∧ (noEmptyStyleNames sd →
       ∀ (st0 : Option (Except Unit J)) (rs : Nat → Nat) (res : J × J × Bool)
         (st1 : Option (Except Unit J)),
         runReconcileSeq sd st0 text sc ss rs 0 = .ok (res, st1) →
         ∀ k, runReconcileSeq sd st0 text sc ss rs (k + 1)
           = .ok ((res.1, res.2.1, false),
                  some (.ok (mkSidecarMeta res.1 res.2.1 text)))) := by
  constructor
  · simp only [jLookup] at hs hn ha hc hq
    simp [getStableStyleForContent, pyGet, jLookup, hs, hn, ha, hc, hq, pyNeStr, truthy,
          hnm, hap]
  · intro hne st0 rs res st1 h0
    have h0' : runReconcile sd st0 text sc ss (rs 0) = .ok (res, st1) := h0
    obtain ⟨hg0, hst1⟩ := runReconcile_ok sd h0'
    obtain ⟨ht1, ht2⟩ := getStable_ok_truthy sd hne hg0
    intro k
    induction k with
    | zero =>
      rw [runReconcileSeq_succ, h0, hst1]
      show runReconcile sd (some (.ok (mkSidecarMeta res.1 res.2.1 text))) text sc ss (rs (0 + 1))
        = _
      unfold runReconcile
      rw [getStable_mkSidecar sd _ _ _ _ _ _ ht1 ht2]
    | succ k ih =>
      rw [runReconcileSeq_succ, ih]
      show runReconcile sd (some (.ok (mkSidecarMeta res.1 res.2.1 text))) text sc ss
          (rs (k + 1 + 1)) = _
      unfold runReconcile
      rw [getStable_mkSidecar sd _ _ _ _ _ _ ht1 ht2]

/-- C1 witness: on a concrete matching sidecar the recorded pair is
returned unchanged, and iterating the reconcile-and-persist loop twice
more still returns it. -/
theorem c1_witness :
    getStableStyleForContent sdW (some (.ok (.jobj metaFieldsW))) (ps "T")
      (ps "random") (ps "random") 7
      = .ok (.jstr (ps "p1"), .jstr (ps "painting_technique"), false)
    ∧ runReconcileSeq sdW (some (.ok (.jobj metaFieldsW))) (ps "T") (ps "random")
        (ps "random") (fun _ => 0) 2
      = .ok ((.jstr (ps "p1"), .jstr (ps "painting_technique"), false),
             some (.ok (mkSidecarMeta (.jstr (ps "p1"))
                         (.jstr (ps "painting_technique")) (ps "T")))) := by
  have h := c1_stable_style_and_idempotence sdW metaFieldsW styleFieldsW contentFieldsW
    (ps "p1") (ps "painting_technique") (ps "T") (ps "random") (ps "random") 7
    rfl rfl (by decide) rfl (by decide) rfl rfl
  refine ⟨h.1, ?_⟩
  exact h.2 (by exact ⟨by decide, by decide⟩) (some (.ok (.jobj metaFieldsW))) (fun _ => 0)
    (.jstr (ps "p1"), .jstr (ps "painting_technique"), false)
    (some (.ok (mkSidecarMeta (.jstr (ps "p1")) (.jstr (ps "painting_technique")) (ps "T"))))
    rfl 1

/-- C2 counterexample: the claim covers every sidecar recording a body
text different from the current one, but a sidecar whose style entry is
a non-object JSON value (here an array) makes
get_stable_style_for_content raise AttributeError (only JSONDecodeError
and FileNotFoundError are caught) instead of returning a fresh draw
with contentChanged = true. -/
theorem c2_counterexample :
    getStableStyleForContent ⟨[ps "p1"], [ps "s1"]⟩
      (some (.ok (.jobj [(ps "style", .jarr []),
                         (ps "content", .jobj [(ps "quote_text", .jstr (ps "OLD"))])])))
      (ps "NEW") (ps "random") (ps "random") 0
      = .error () := rfl

/-- C2 (amended): when the variation-1 sidecar parses to a JSON object
whose style entry is absent or itself an object, and whose recorded body
text differs from the current body text, get_stable_style_for_content
returns contentChanged = true together with a freshly drawn assignment
produced by the selection rule (not the recorded pair). -/
theorem c2_change_detection
    (sd : StylesData) (m c : List (PyStr × J)) (told text sc ss : PyStr) (r : Nat)
    (hs : jLookup m (ps "style") = none ∨ ∃ s, jLookup m (ps "style") = some (.jobj s))
    (hc : jLookup m (ps "content") = some (.jobj c))
    (hq : jLookup c (ps "quote_text") = some (.jstr told))
    (hne : told ≠ text) :
    ∃ n cat, selectStyle sd sc ss r = some (n, cat)
      ∧ getStableStyleForContent sd (some (.ok (.jobj m))) text sc ss r
        = .ok (.jstr n, .jstr cat, true) := by
  obtain ⟨n, cat, hsel, hfd⟩ := freshDraw_ok sd sc ss r true
  refine ⟨n, cat, hsel, ?_⟩
  simp only [jLookup] at hc hq
  rcases hs with hs | ⟨s, hs⟩ <;> simp only [jLookup] at hs <;>
    simp [getStableStyleForContent, pyGet, jLookup, lookupLast, hs, hc, hq, pyNeStr,
          hne, hfd]

/-- C2 witness: a concrete sidecar recording body text "OLDTEXT"
reconciled against "NEWTEXT" yields the fresh draw (here "p1" from
painting_technique at draw index 0) with contentChanged = true. -/
theorem c2_witness :
    getStableStyleForContent sdW (some (.ok (.jobj mChangedW))) (ps "NEWTEXT")
      (ps "random") (ps "random") 0
      = .ok (.jstr (ps "p1"), .jstr (ps "painting_technique"), true) := by
  obtain ⟨n, cat, hsel, hres⟩ :=
    c2_change_detection sdW mChangedW [(ps "quote_text", .jstr (ps "OLDTEXT"))]
      (ps "OLDTEXT") (ps "NEWTEXT") (ps "random") (ps "random") 0
      (Or.inr ⟨styleFieldsW, rfl⟩) rfl rfl (by decide)
  have h1 : selectStyle sdW (ps "random") (ps "random") 0
      = some (ps "p1", ps "painting_technique") := rfl
  rw [h1] at hsel
  have hp := Option.some.inj hsel
  have hn : ps "p1" = n := congrArg Prod.fst hp
  have hcat : ps "painting_technique" = cat := congrArg Prod.snd hp
  rw [hres, ← hn, ← hcat]

/-- C3 witness: with an empty style library, the unknown category falls
back to the fixed style in the default category, and an empty known
category returns the fixed fallback name. -/
theorem c3_witness :
    selectStyle sdEmptyW (ps "nonexistent_category") (ps "anything") 5
      = some (ps "turner-atmospheric", ps "painting_technique")
    ∧ selectStyle sdEmptyW (ps "painting_technique") (ps "specific-style") 3
      = some (ps "turner-atmospheric", ps "painting_technique") := by
  constructor
  · obtain ⟨n, hsel, hmem⟩ := (c3_fallback_safety sdEmptyW (ps "anything") 5).1
    rcases hmem with h | ⟨_, rfl⟩
    · exact absurd h (List.not_mem_nil n)
    · exact hsel
  · exact (c3_fallback_safety sdEmptyW (ps "anything") 3).2 (ps "painting_technique")
      (ps "specific-style") (Or.inl ⟨rfl, rfl⟩)

/-- C10 counterexample: a sidecar that parses to JSON and lacks a
recorded style name, but whose style entry is a non-object value (an
array), makes get_stable_style_for_content raise AttributeError even
though the recorded body text matches — the claimed never-raises
behaviour fails there. -/
theorem c10_counterexample :
    getStableStyleForContent ⟨[ps "p1"], [ps "s1"]⟩
      (some (.ok (.jobj [(ps "style", .jarr []),
                         (ps "content", .jobj [(ps "quote_text", .jstr (ps "T"))])])))
      (ps "T") (ps "random") (ps "random") 0
      = .error () := rfl

/-- C10 (amended): when the variation-1 sidecar fails to parse as JSON,
or parses to a JSON object whose style and content entries are absent or
themselves objects but which lacks a truthy recorded style name or
approach while the recorded body text — the quote_text entry, defaulting
to the empty string when absent — equals the current one,
get_stable_style_for_content does not raise and returns a freshly drawn
assignment with contentChanged = false, indistinguishable from the
no-prior-metadata case. -/
theorem c10_corrupt_sidecar_fresh_draw
    (sd : StylesData) (m : List (PyStr × J)) (text sc ss : PyStr) (r : Nat)
    (hs : jLookup m (ps "style") = none
        ∨ ∃ s, jLookup m (ps "style") = some (.jobj s)
            ∧ ¬ (truthy ((jLookup s (ps "name")).getD .jnull) = true
                  ∧ truthy ((jLookup s (ps "approach")).getD .jnull) = true))
    (hc : (jLookup m (ps "content") = none ∧ text = [])
        ∨ ∃ c, jLookup m (ps "content") = some (.jobj c)
            ∧ (jLookup c (ps "quote_text")).getD (J.jstr []) = J.jstr text) :
    ∃ n cat, selectStyle sd sc ss r = some (n, cat)
      ∧ getStableStyleForContent sd (some (.error ())) text sc ss r
          = .ok (.jstr n, .jstr cat, false)
      ∧ getStableStyleForContent sd (some (.ok (.jobj m))) text sc ss r
          = .ok (.jstr n, .jstr cat, false)
      ∧ getStableStyleForContent sd none text sc ss r
          = .ok (.jstr n, .jstr cat, false) := by
  obtain ⟨n, cat, hsel, hfd⟩ := freshDraw_ok sd sc ss r false
  refine ⟨n, cat, hsel, ?_, ?_, ?_⟩
  · simp [getStableStyleForContent, hfd]
  · have hab : ∀ s, ¬ (truthy ((jLookup s (ps "name")).getD .jnull) = true
          ∧ truthy ((jLookup s (ps "approach")).getD .jnull) = true) →
        (truthy ((lookupLast s (ps "name")).getD J.jnull)
          && truthy ((lookupLast s (ps "approach")).getD J.jnull)) = false := by
      intro s hguard
      rcases Bool.eq_false_or_eq_true (truthy ((lookupLast s (ps "name")).getD J.jnull)
          && truthy ((lookupLast s (ps "approach")).getD J.jnull)) with hb | hb
      · exact absurd (by simpa [Bool.and_eq_true, jLookup] using hb) hguard
      · exact hb
    rcases hc with ⟨hcn, htext⟩ | ⟨c, hco, hcq⟩
    · simp only [jLookup] at hcn
      subst htext
      rcases hs with hsn | ⟨s, hso, hguard⟩
      · simp only [jLookup] at hsn
        simp [getStableStyleForContent, pyGet, jLookup, lookupLast, hsn, hcn, pyNeStr,
              truthy, hfd]
      · have hab2 := hab s hguard
        simp only [jLookup] at hso
        simp [getStableStyleForContent, pyGet, jLookup, lookupLast, hso, hcn, pyNeStr,
              hab2, hfd]
    · simp only [jLookup] at hco hcq
      rcases hs with hsn | ⟨s, hso, hguard⟩
      · simp only [jLookup] at hsn
        simp [getStableStyleForContent, pyGet, jLookup, lookupLast, hsn, hco, hcq, pyNeStr,
              truthy, hfd]
      · have hab2 := hab s hguard
        simp only [jLookup] at hso
        simp [getStableStyleForContent, pyGet, jLookup, hso, hco, hcq, pyNeStr, hab2, hfd]
  · simp [getStableStyleForContent, hfd]

/-- C10 witness: a concrete parsed sidecar whose style object records an
approach but no name, with matching body text, yields the same fresh
draw as a missing or unparsable sidecar, with contentChanged = false. -/
theorem c10_witness :
    getStableStyleForContent sdW (some (.ok (.jobj mNoNameW))) (ps "T")
      (ps "random") (ps "random") 0
      = .ok (.jstr (ps "p1"), .jstr (ps "painting_technique"), false)
    ∧ getStableStyleForContent sdW (some (.error ())) (ps "T")
      (ps "random") (ps "random") 0
      = .ok (.jstr (ps "p1"), .jstr (ps "painting_technique"), false) := by
  obtain ⟨n, cat, hsel, herr, hobj, _⟩ :=
    c10_corrupt_sidecar_fresh_draw sdW mNoNameW
      (ps "T") (ps "random") (ps "random") 0
      (Or.inr ⟨[(ps "approach", .jstr (ps "painting_technique"))], rfl, by decide⟩)
      (Or.inr ⟨[(ps "quote_text", J.jstr (ps "T"))], rfl, rfl⟩)
  have h1 : selectStyle sdW (ps "random") (ps "random") 0
      = some (ps "p1", ps "painting_technique") := rfl
  rw [h1] at hsel
  have hp := Option.some.inj hsel
  have hn : ps "p1" = n := congrArg Prod.fst hp
  have hcat : ps "painting_technique" = cat := congrArg Prod.snd hp
  constructor
  · rw [hobj, ← hn, ← hcat]
  · rw [herr, ← hn, ← hcat]

lemma lookupLast_cons {β : Type} (k0 : PyStr) (v0 : β) (t : List (PyStr × β)) (k : PyStr) :
    lookupLast ((k0, v0) :: t) k
      = match lookupLast t k with
        | some w => some w
        | none => if k0 = k then some v0 else none := rfl

lemma lookupLast_append_single {β : Type} (l : List (PyStr × β)) (k : PyStr) (v : β) :
    lookupLast (l ++ [(k, v)]) k = some v := by
  induction l with
  | nil => simp [lookupLast]
  | cons x t ih =>
    cases x with
    | mk k0 v0 =>
      rw [List.cons_append, lookupLast_cons, ih]

lemma lookupLast_append_single_ne {β : Type} (l : List (PyStr × β)) (k k' : PyStr) (v : β)
    (h : ¬ k' = k) :
    lookupLast (l ++ [(k', v)]) k = lookupLast l k := by
  induction l with
  | nil => simp [lookupLast, h]
  | cons x t ih =>
    cases x with
    | mk k0 v0 =>
      rw [List.cons_append, lookupLast_cons, ih, lookupLast_cons]

lemma applyStyleDefaults_spec (fm : List (PyStr × J)) :
    ((fm.map Prod.fst).contains (ps "style_category") = false →
        lookupLast (applyStyleDefaults fm) (ps "style_category")
          = some (.jstr (ps "random")))
    ∧ ((fm.map Prod.fst).contains (ps "style_specific") = false →
        lookupLast (applyStyleDefaults fm) (ps "style_specific")
          = some (.jstr (ps "random"))) := by
  unfold applyStyleDefaults
  by_cases hcat : (fm.map Prod.fst).contains (ps "style_category") = true
  · rw [if_pos hcat]
    constructor
    · intro hc; rw [hcat] at hc; exact Bool.noConfusion hc
    · intro hc
      rw [if_neg (show ¬ (fm.map Prod.fst).contains (ps "style_specific") = true by
        rw [hc]; exact fun h => Bool.noConfusion h)]
      exact lookupLast_append_single fm (ps "style_specific") (.jstr (ps "random"))
  · rw [if_neg hcat]
    have hkeys : ((fm ++ [(ps "style_category", J.jstr (ps "random"))]).map
        Prod.fst).contains (ps "style_specific")
        = (fm.map Prod.fst).contains (ps "style_specific") := by
      simp
      intro h
      exact absurd h (by decide)
    constructor
    · intro _
      by_cases hspec : ((fm ++ [(ps "style_category", J.jstr (ps "random"))]).map
          Prod.fst).contains (ps "style_specific") = true
      · rw [if_pos hspec]
        exact lookupLast_append_single fm (ps "style_category") (.jstr (ps "random"))
      · rw [if_neg hspec]
        rw [lookupLast_append_single_ne _ _ _ _ (by decide)]
        exact lookupLast_append_single fm (ps "style_category") (.jstr (ps "random"))
    · intro hc
      have hspec : ¬ ((fm ++ [(ps "style_category", J.jstr (ps "random"))]).map
          Prod.fst).contains (ps "style_specific") = true := by
        rw [hkeys, hc]; exact fun h => Bool.noConfusion h
      rw [if_neg hspec]
      exact lookupLast_append_single (fm ++ [(ps "style_category", J.jstr (ps "random"))])
        (ps "style_specific") (J.jstr (ps "random"))

/-- C4: parse_markdown fails exactly when the metadata block is missing
(no leading delimiter), malformed (fewer than three delimiter-separated
parts, a frontmatter block the yaml loader rejects, or one that does not
load as a mapping), or a required key (title, author, type) is absent
from the loaded mapping; when it succeeds, an absent style_category or
style_specific key is set to "random" in the returned frontmatter. -/
theorem c4_content_loader_validation (yamlLoad : YamlLoad) (content : PyStr) :
    ((∃ e, parseMarkdown yamlLoad content = .error e) ↔
      (pyStartsWith content (ps "---") = false
        ∨ (pySplit2 (ps "---") content).length < 3
        ∨ yamlLoad ((pySplit2 (ps "---") content).getD 1 []) = .error ()
        ∨ yamlLoad ((pySplit2 (ps "---") content).getD 1 []) = .ok none
        ∨ ∃ fm, yamlLoad ((pySplit2 (ps "---") content).getD 1 []) = .ok (some fm)
            ∧ ∃ f ∈ requiredFields, (fm.map Prod.fst).contains f = false))
    ∧ (∀ doc, parseMarkdown yamlLoad content = .ok doc →
        ∀ fm, yamlLoad ((pySplit2 (ps "---") content).getD 1 []) = .ok (some fm) →
          ((fm.map Prod.fst).contains (ps "style_category") = false →
              jLookup doc.frontmatter (ps "style_category") = some (.jstr (ps "random")))
          ∧ ((fm.map Prod.fst).contains (ps "style_specific") = false →
              jLookup doc.frontmatter (ps "style_specific") = some (.jstr (ps "random")))) := by
  by_cases hsw : pyStartsWith content (ps "---") = true
  case neg =>
    have hsw' : pyStartsWith content (ps "---") = false := by simpa using hsw
    have hpm : parseMarkdown yamlLoad content = .error .noFrontmatter := by
      unfold parseMarkdown; rw [if_neg hsw]
    constructor
    · exact ⟨fun _ => Or.inl hsw', fun _ => ⟨_, hpm⟩⟩
    · intro doc hdoc
      rw [hpm] at hdoc; exact Except.noConfusion hdoc
  case pos =>
    cases hparts : pySplit2 (ps "---") content with
    | nil =>
      have hpm : parseMarkdown yamlLoad content = .error .invalidFormat := by
        unfold parseMarkdown; rw [if_pos hsw, hparts]
      refine ⟨⟨fun _ => Or.inr (Or.inl (by simp)), fun _ => ⟨_, hpm⟩⟩, ?_⟩
      intro doc hdoc; rw [hpm] at hdoc; exact Except.noConfusion hdoc
    | cons p0 tail0 =>
    cases tail0 with
    | nil =>
      have hpm : parseMarkdown yamlLoad content = .error .invalidFormat := by
        unfold parseMarkdown; rw [if_pos hsw, hparts]
      refine ⟨⟨fun _ => Or.inr (Or.inl (by simp)), fun _ => ⟨_, hpm⟩⟩, ?_⟩
      intro doc hdoc; rw [hpm] at hdoc; exact Except.noConfusion hdoc
    | cons p1 tail1 =>
    cases tail1 with
    | nil =>
      have hpm : parseMarkdown yamlLoad content = .error .invalidFormat := by
        unfold parseMarkdown; rw [if_pos hsw, hparts]
      refine ⟨⟨fun _ => Or.inr (Or.inl (by simp)), fun _ => ⟨_, hpm⟩⟩, ?_⟩
      intro doc hdoc; rw [hpm] at hdoc; exact Except.noConfusion hdoc
    | cons p2 rest =>
    have hget : (p0 :: p1 :: p2 :: rest).getD 1 ([] : PyStr) = p1 := rfl
    have hlen : ¬ (p0 :: p1 :: p2 :: rest).length < 3 := by simp
    rw [hget]
    have hstep : parseMarkdown yamlLoad content
        = (match yamlLoad p1 with
           | .error _ => .error .yamlError
           | .ok none => .error .nonMappingFrontmatter
           | .ok (some fm) =>
             match requiredFields.find? (fun f => ¬ (fm.map Prod.fst).contains f) with
             | some f => .error (.missingField f)
             | none =>
               .ok { frontmatter := applyStyleDefaults fm,
                     content := (lookupLast (parseSections (pyStrip p2)) (ps "main")).getD [],
                     why_i_like_it :=
                       (lookupLast (parseSections (pyStrip p2)) (ps "why_i_like_it")).getD [],
                     all_sections := parseSections (pyStrip p2) }) := by
      unfold parseMarkdown
      rw [if_pos hsw, hparts]
    cases hy : yamlLoad p1 with
    | error e =>
      cases e
      rw [hy] at hstep
      have hpm : parseMarkdown yamlLoad content = .error .yamlError := hstep.trans rfl
      refine ⟨⟨fun _ => Or.inr (Or.inr (Or.inl rfl)), fun _ => ⟨_, hpm⟩⟩, ?_⟩
      intro doc hdoc; rw [hpm] at hdoc; exact Except.noConfusion hdoc
    | ok ofm =>
    cases ofm with
    | none =>
      rw [hy] at hstep
      have hpm : parseMarkdown yamlLoad content = .error .nonMappingFrontmatter :=
        hstep.trans rfl
      refine ⟨⟨fun _ => Or.inr (Or.inr (Or.inr (Or.inl rfl))), fun _ => ⟨_, hpm⟩⟩, ?_⟩
      intro doc hdoc; rw [hpm] at hdoc; exact Except.noConfusion hdoc
    | some fm =>
    rw [hy] at hstep
    have hstep2 : parseMarkdown yamlLoad content
        = (match requiredFields.find? (fun f => ¬ (fm.map Prod.fst).contains f) with
           | some f => .error (.missingField f)
           | none =>
             .ok { frontmatter := applyStyleDefaults fm,
                   content := (lookupLast (parseSections (pyStrip p2)) (ps "main")).getD [],
                   why_i_like_it :=
                     (lookupLast (parseSections (pyStrip p2)) (ps "why_i_like_it")).getD [],
                   all_sections := parseSections (pyStrip p2) }) := hstep.trans rfl
    cases hf : requiredFields.find? (fun f => ¬ (fm.map Prod.fst).contains f) with
    | some f =>
      rw [hf] at hstep2
      have hmem := List.mem_of_find?_eq_some hf
      have hpred0 := List.find?_some hf
      have hpred : decide (¬ (fm.map Prod.fst).contains f = true) = true := hpred0
      have hcf : (fm.map Prod.fst).contains f = false := by
        simpa using of_decide_eq_true hpred
      have hpm : parseMarkdown yamlLoad content = .error (.missingField f) :=
        hstep2.trans rfl
      refine ⟨⟨fun _ => Or.inr (Or.inr (Or.inr (Or.inr ⟨fm, rfl, f, hmem, hcf⟩))),
              fun _ => ⟨_, hpm⟩⟩, ?_⟩
      intro doc hdoc; rw [hpm] at hdoc; exact Except.noConfusion hdoc
    | none =>
      rw [hf] at hstep2
      have hall : ∀ f ∈ requiredFields, (fm.map Prod.fst).contains f = true := by
        intro f hfm
        have hnone := List.find?_eq_none.mp hf f hfm
        simpa using hnone
      have hpm : parseMarkdown yamlLoad content = .ok
          { frontmatter := applyStyleDefaults fm,
            content := (lookupLast (parseSections (pyStrip p2)) (ps "main")).getD [],
            why_i_like_it :=
              (lookupLast (parseSections (pyStrip p2)) (ps "why_i_like_it")).getD [],
            all_sections := parseSections (pyStrip p2) } := hstep2.trans rfl
      constructor
      · constructor
        · intro he
          obtain ⟨e, he⟩ := he
          rw [hpm] at he; exact Except.noConfusion he
        · intro hdisj
          exfalso
          rcases hdisj with h | h | h | h | ⟨fm', hy', f, hfmem, hcf⟩
          · rw [hsw] at h; exact Bool.noConfusion h
          · exact hlen h
          · exact Except.noConfusion h
          · exact Option.noConfusion (Except.ok.inj h)
          · have hfm' : fm = fm' := Option.some.inj (Except.ok.inj hy')
            rw [← hfm'] at hcf
            rw [hall f hfmem] at hcf
            exact Bool.noConfusion hcf
      · intro doc hdoc fm' hy'
        rw [hpm] at hdoc
        have hdoc' := Except.ok.inj hdoc
        have hfm' : fm = fm' := Option.some.inj (Except.ok.inj hy')
        rw [← hfm', ← hdoc']
        exact ⟨fun hc => (applyStyleDefaults_spec fm).1 hc,
               fun hc => (applyStyleDefaults_spec fm).2 hc⟩

/-- C4 witness: a concrete file with required keys and no style keys
parses successfully and both style keys come back defaulted to
"random". -/
theorem c4_witness :
    parseMarkdown yamlW contentW
      = .ok { frontmatter := fmW ++ [(ps "style_category", J.jstr (ps "random")),
                                     (ps "style_specific", J.jstr (ps "random"))],
              content := ps "Body", why_i_like_it := [],
              all_sections := [(ps "main", ps "Body")] }
    ∧ jLookup (fmW ++ [(ps "style_category", J.jstr (ps "random")),
                       (ps "style_specific", J.jstr (ps "random"))]) (ps "style_category")
        = some (.jstr (ps "random"))
    ∧ jLookup (fmW ++ [(ps "style_category", J.jstr (ps "random")),
                       (ps "style_specific", J.jstr (ps "random"))]) (ps "style_specific")
        = some (.jstr (ps "random")) := by
  refine ⟨rfl, ?_, ?_⟩
  · exact ((c4_content_loader_validation yamlW contentW).2 _ rfl fmW rfl).1 rfl
  · exact ((c4_content_loader_validation yamlW contentW).2 _ rfl fmW rfl).2 rfl

/-- C5 counterexample: the claim requires an update/style_change entry
whenever some variation files exist, content is unchanged, and the v1
sidecar-recorded style differs from the current one — but the source
reads the v1 sidecar only when the v1 image file itself is on disk.
Here v2 exists, the v1 sidecar records "oldstyle" against current
"newstyle", yet needs_generation comes back empty. -/
theorem c5_counterexample :
    checkNewStyles 3 [cRealW] [ps "real_v2.png"]
      [(ps "real_v1_metadata.json",
        .ok (.jobj [(ps "style", .jobj [(ps "name", .jstr (ps "oldstyle")),
                                        (ps "approach", .jstr (ps "painting_technique"))]),
                    (ps "content", .jobj [(ps "quote_text", .jstr (ps "T"))])]))]
      = .ok ⟨1, 1, []⟩ := rfl

/-- C5 (amended): with the metadata map built successfully, every
content piece is classified as follows — no variation file on disk
gives a new/no_images entry; some variation on disk plus changed
content gives an update/content_change entry; the v1 image on disk with
unchanged content and a v1 sidecar-recorded style differing from the
current style gives an update/style_change entry carrying both styles;
and a piece whose variations all exist with matching recorded style and
unchanged content is omitted.  needs_generation is exactly the
concatenation of the per-piece classifications. -/
theorem c5_inventory_classification
    (N : Nat) (contentList : List ContentJson) (imageNames : List PyStr)
    (metaDir : List (PyStr × Except Unit J)) (em : List (PyStr × J × J)) (res : CheckResult)
    (hem : buildExistingMetadata metaDir imageNames = .ok em)
    (hres : checkNewStyles N contentList imageNames metaDir = .ok res)
    (c : ContentJson) (hc : c ∈ contentList) :
    ((∀ v ∈ (List.range N).map (fun i => i + 1),
        imageNames.contains (expectedVName c v) = false) →
      GenItem.mk c.title c.author (getBaseFilenameFromContentFile c.content_file)
          (ps "no_images") (c.style_name.getD (ps "unknown")) none (ps "new")
        ∈ res.needs_generation)
    ∧ ((∃ v ∈ (List.range N).map (fun i => i + 1),
          imageNames.contains (expectedVName c v) = true) →
        c.content_changed = true →
        GenItem.mk c.title c.author (getBaseFilenameFromContentFile c.content_file)
            (ps "content_change") (c.style_name.getD (ps "unknown")) none (ps "update")
          ∈ res.needs_generation)
    ∧ (1 ≤ N → imageNames.contains (expectedVName c 1) = true →
        c.content_changed = false →
        ∀ n a, lookupLast em (expectedVName c 1) = some (n, a) →
          pyNeStr n (c.style_name.getD (ps "unknown")) = true →
          GenItem.mk c.title c.author (getBaseFilenameFromContentFile c.content_file)
              (ps "style_change") (c.style_name.getD (ps "unknown")) (some n) (ps "update")
            ∈ res.needs_generation)
    ∧ ((∀ v ∈ (List.range N).map (fun i => i + 1),
          imageNames.contains (expectedVName c v) = true) →
        1 ≤ N → c.content_changed = false →
        ∀ n a, lookupLast em (expectedVName c 1) = some (n, a) →
          pyNeStr n (c.style_name.getD (ps "unknown")) = false →
          classifyContent N imageNames em c = none)
    ∧ res.needs_generation = contentList.filterMap (classifyContent N imageNames em) := by
  have hng : res.needs_generation = contentList.filterMap (classifyContent N imageNames em) := by
    unfold checkNewStyles at hres
    rw [hem] at hres
    have h := Except.ok.inj hres
    rw [← h]
  refine ⟨?_, ?_, ?_, ?_, hng⟩
  · intro hnone
    have hve : List.filter (fun v => imageNames.contains (expectedVName c v))
        (List.map (fun i => i + 1) (List.range N)) = [] := by
      apply List.filter_eq_nil_iff.mpr
      intro v hv
      rw [hnone v hv]
      exact fun h => Bool.noConfusion h
    have hcl : classifyContent N imageNames em c
        = some ⟨c.title, c.author, getBaseFilenameFromContentFile c.content_file,
                ps "no_images", c.style_name.getD (ps "unknown"), none, ps "new"⟩ := by
      simp only [classifyContent]
      rw [hve]
      rfl
    exact hng ▸ List.mem_filterMap.mpr ⟨c, hc, hcl⟩
  · intro hsome hch
    obtain ⟨v, hv, hcont⟩ := hsome
    cases hfe : List.filter (fun v => imageNames.contains (expectedVName c v))
        (List.map (fun i => i + 1) (List.range N)) with
    | nil => exact absurd hcont (List.filter_eq_nil_iff.mp hfe v hv)
    | cons x xs =>
      have hcl : classifyContent N imageNames em c
          = some ⟨c.title, c.author, getBaseFilenameFromContentFile c.content_file,
                  ps "content_change", c.style_name.getD (ps "unknown"), none,
                  ps "update"⟩ := by
        simp only [classifyContent]
        rw [hfe, hch]
        rfl
      exact hng ▸ List.mem_filterMap.mpr ⟨c, hc, hcl⟩
  · intro hN hv1 hch n a hlk hmm
    have hv1mem : (1 : Nat) ∈ (List.range N).map (fun i => i + 1) :=
      List.mem_map.mpr ⟨0, List.mem_range.mpr hN, rfl⟩
    cases hfe : List.filter (fun v => imageNames.contains (expectedVName c v))
        (List.map (fun i => i + 1) (List.range N)) with
    | nil => exact absurd hv1 (List.filter_eq_nil_iff.mp hfe 1 hv1mem)
    | cons x xs =>
      have hcl : classifyContent N imageNames em c
          = some ⟨c.title, c.author, getBaseFilenameFromContentFile c.content_file,
                  ps "style_change", c.style_name.getD (ps "unknown"), some n,
                  ps "update"⟩ := by
        simp only [classifyContent]
        simp only [hfe, hch, decide_eq_true hN, hv1, hlk, hmm]
        rfl
      exact hng ▸ List.mem_filterMap.mpr ⟨c, hc, hcl⟩
  · intro hall hN hch n a hlk hmm
    have hv1mem : (1 : Nat) ∈ (List.range N).map (fun i => i + 1) :=
      List.mem_map.mpr ⟨0, List.mem_range.mpr hN, rfl⟩
    cases hfe : List.filter (fun v => imageNames.contains (expectedVName c v))
        (List.map (fun i => i + 1) (List.range N)) with
    | nil => exact absurd (hall 1 hv1mem) (List.filter_eq_nil_iff.mp hfe 1 hv1mem)
    | cons x xs =>
      simp only [classifyContent]
      simp only [hfe, hch, decide_eq_true hN, hall 1 hv1mem, hlk, hmm]
      rfl

/-- C5 witness: the synthetic three-item inventory — A with no
artifacts is flagged new/no_images, B with all variations and matching
style is omitted, C with a v1 style mismatch is flagged
update/style_change carrying both style names. -/
theorem c5_witness :
    GenItem.mk (ps "A") (ps "a") (ps "aaa") (ps "no_images") (ps "styleA") none (ps "new")
      ∈ resABC.needs_generation
    ∧ classifyContent 3 imagesABC emABC cBW = none
    ∧ GenItem.mk (ps "C") (ps "c") (ps "ccc") (ps "style_change") (ps "styleC")
        (some (.jstr (ps "old"))) (ps "update") ∈ resABC.needs_generation := by
  refine ⟨?_, ?_, ?_⟩
  · exact (c5_inventory_classification 3 [cAW, cBW, cCW] imagesABC metaABC emABC resABC
      rfl rfl cAW (List.Mem.head _)).1 (by decide)
  · exact (c5_inventory_classification 3 [cAW, cBW, cCW] imagesABC metaABC emABC resABC
      rfl rfl cBW (List.Mem.tail _ (List.Mem.head _))).2.2.2.1 (by decide) (by decide) rfl
      (.jstr (ps "styleB")) (.jstr (ps "painting_technique")) rfl (by decide)
  · exact (c5_inventory_classification 3 [cAW, cBW, cCW] imagesABC metaABC emABC resABC
      rfl rfl cCW (List.Mem.tail _ (List.Mem.tail _ (List.Mem.head _)))).2.2.1 (by decide)
      rfl rfl (.jstr (ps "old")) (.jstr (ps "painting_technique")) rfl (by decide)

lemma classifyOrphans_cons (N : Nat) (bases expected : List PyStr) (f : FileEntry)
    (rest : List FileEntry) :
    classifyOrphans N bases expected (f :: rest)
      = (if expected.contains f.name then classifyOrphans N bases expected rest
         else if bases.contains (baseNameOf f.name) then
           ((classifyOrphans N bases expected rest).1,
            ⟨f.name, excessReason N⟩ :: (classifyOrphans N bases expected rest).2.1,
            (classifyOrphans N bases expected rest).2.2 + f.size)
         else
           (⟨f.name, ps "content file missing"⟩ :: (classifyOrphans N bases expected rest).1,
            (classifyOrphans N bases expected rest).2.1,
            (classifyOrphans N bases expected rest).2.2 + f.size)) := rfl

lemma classifyOrphans_mem_missing (N : Nat) (bases expected : List PyStr)
    (l : List FileEntry) (f : FileEntry) (hf : f ∈ l)
    (hexp : expected.contains f.name = false)
    (hbase : bases.contains (baseNameOf f.name) = false) :
    OrphanItem.mk f.name (ps "content file missing")
      ∈ (classifyOrphans N bases expected l).1 := by
  induction l with
  | nil => exact absurd hf (List.not_mem_nil f)
  | cons a t ih =>
    rw [classifyOrphans_cons]
    rcases List.mem_cons.mp hf with rfl | hft
    · rw [if_neg (show ¬ expected.contains f.name = true by
        rw [hexp]; exact fun h => Bool.noConfusion h)]
      rw [if_neg (show ¬ bases.contains (baseNameOf f.name) = true by
        rw [hbase]; exact fun h => Bool.noConfusion h)]
      exact List.Mem.head _
    · have hmem := ih hft
      by_cases h1 : expected.contains a.name = true
      · rw [if_pos h1]; exact hmem
      · rw [if_neg h1]
        by_cases h2 : bases.contains (baseNameOf a.name) = true
        · rw [if_pos h2]; exact hmem
        · rw [if_neg h2]; exact List.Mem.tail _ hmem

lemma classifyOrphans_mem_excess (N : Nat) (bases expected : List PyStr)
    (l : List FileEntry) (f : FileEntry) (hf : f ∈ l)
    (hexp : expected.contains f.name = false)
    (hbase : bases.contains (baseNameOf f.name) = true) :
    OrphanItem.mk f.name (excessReason N)
      ∈ (classifyOrphans N bases expected l).2.1 := by
  induction l with
  | nil => exact absurd hf (List.not_mem_nil f)
  | cons a t ih =>
    rw [classifyOrphans_cons]
    rcases List.mem_cons.mp hf with rfl | hft
    · rw [if_neg (show ¬ expected.contains f.name = true by
        rw [hexp]; exact fun h => Bool.noConfusion h)]
      rw [if_pos hbase]
      exact List.Mem.head _
    · have hmem := ih hft
      by_cases h1 : expected.contains a.name = true
      · rw [if_pos h1]; exact hmem
      · rw [if_neg h1]
        by_cases h2 : bases.contains (baseNameOf a.name) = true
        · rw [if_pos h2]; exact List.Mem.tail _ hmem
        · rw [if_neg h2]; exact hmem

/-- C6: every image file on disk whose name is not among the expected
variation names is classified "content file missing" when its base
identity matches no current content item, and "excess variation" when
its base identity matches one; orphaned sidecar files are collected in
the separate orphaned_metadata list. -/
theorem c6_orphan_classification (N : Nat) (contentList : List ContentJson)
    (images : List FileEntry) (metaNames : List PyStr) :
    (∀ f ∈ images, (expectedFiles N contentList).contains f.name = false →
      (((contentList.map (fun c => getBaseFilenameFromContentFile c.content_file)).contains
          (baseNameOf f.name) = false →
        OrphanItem.mk f.name (ps "content file missing")
          ∈ (identifyOrphanedImages N contentList images metaNames).missing_content)
      ∧ ((contentList.map (fun c => getBaseFilenameFromContentFile c.content_file)).contains
          (baseNameOf f.name) = true →
        OrphanItem.mk f.name (excessReason N)
          ∈ (identifyOrphanedImages N contentList images metaNames).excess_variations)))
    ∧ (∀ m ∈ metaNames, (expectedFiles N contentList).contains m = false →
        m ∈ (identifyOrphanedImages N contentList images metaNames).orphaned_metadata) := by
  constructor
  · intro f hf hexp
    constructor
    · intro hbase
      exact classifyOrphans_mem_missing N _ _ images f hf hexp hbase
    · intro hbase
      exact classifyOrphans_mem_excess N _ _ images f hf hexp hbase
  · intro m hm hexp
    show m ∈ metaNames.filter _
    refine List.mem_filter.mpr ⟨hm, ?_⟩
    rw [hexp]
    rfl

/-- C6 witness: ghost_v1.png (no content identity "ghost") lands in
missing_content, real_v5.png (identity "real", N = 3) lands in
excess_variations, and the orphaned ghost sidecar is listed
separately. -/
theorem c6_witness :
    OrphanItem.mk (ps "ghost_v1.png") (ps "content file missing")
      ∈ (identifyOrphanedImages 3 [cRealW] imagesOrphW metaOrphW).missing_content
    ∧ OrphanItem.mk (ps "real_v5.png") (excessReason 3)
      ∈ (identifyOrphanedImages 3 [cRealW] imagesOrphW metaOrphW).excess_variations
    ∧ (ps "ghost_v1_metadata.json")
      ∈ (identifyOrphanedImages 3 [cRealW] imagesOrphW metaOrphW).orphaned_metadata := by
  refine ⟨?_, ?_, ?_⟩
  · exact ((c6_orphan_classification 3 [cRealW] imagesOrphW metaOrphW).1
      ⟨ps "ghost_v1.png", 10⟩ (List.Mem.head _) (by decide)).1 (by decide)
  · exact ((c6_orphan_classification 3 [cRealW] imagesOrphW metaOrphW).1
      ⟨ps "real_v5.png", 20⟩ (List.Mem.tail _ (List.Mem.head _)) (by decide)).2 (by decide)
  · exact (c6_orphan_classification 3 [cRealW] imagesOrphW metaOrphW).2
      (ps "ghost_v1_metadata.json") (List.Mem.head _) (by decide)

/-- C7: preview_analysis computes total_images as (new + update pieces)
times the configured variations_per_content, but its total_cost always
uses the hardcoded 0.039: the constructor reads cost_per_image from the
configuration (line 47) and then unconditionally overwrites it with
0.039 (line 66), so a configured cost of 0.05 is ignored — one new
piece with three variations is priced 3 × 0.039 = 0.117, not
3 × 0.05 = 0.15 as the claim (configuration-controlled cost) requires. -/
theorem c7_cost_preview_config_cost_ignored :
    (∀ (configFile : Option ImageGenConfig) (check : CheckResult),
      (previewAnalysis configFile check).total_images
        = ((check.needs_generation.filter (fun it => it.gtype == ps "new")).length
            + (check.needs_generation.filter (fun it => it.gtype == ps "update")).length)
          * initVariationsPerContent configFile
      ∧ (previewAnalysis configFile check).total_cost
        = ((previewAnalysis configFile check).total_images : ℚ) * (39 / 1000)
      ∧ (previewAnalysis configFile check).cost_per_image = 39 / 1000)
    ∧ (previewAnalysis (some ⟨3, 1 / 20⟩) ⟨0, 1, [newItemW]⟩).total_images = 3
    ∧ (previewAnalysis (some ⟨3, 1 / 20⟩) ⟨0, 1, [newItemW]⟩).total_cost = 117 / 1000
    ∧ (previewAnalysis (some ⟨3, 1 / 20⟩) ⟨0, 1, [newItemW]⟩).total_cost
        ≠ (3 : ℚ) * (1 / 20) := by
  refine ⟨fun configFile check => ⟨rfl, rfl, rfl⟩, rfl, ?_, ?_⟩
  · show ((3 : Nat) : ℚ) * (39 / 1000) = 117 / 1000
    norm_num
  · show ((3 : Nat) : ℚ) * (39 / 1000) ≠ (3 : ℚ) * (1 / 20)
    norm_num

lemma removeLoop_cons (failSet : List PyStr) (f : RemovalItem) (rest : List RemovalItem)
    (st : DiskState) :
    removeLoop failSet (f :: rest) st
      = (if failSet.contains f.name then
          ((removeLoop failSet rest st).1, (removeLoop failSet rest st).2.1,
           (ps "Failed to remove " ++ f.name) :: (removeLoop failSet rest st).2.2.1,
           (removeLoop failSet rest st).2.2.2)
        else if f.ftype = ps "image" then
          (f.name :: (removeLoop failSet rest (deleteFile st f)).1,
           (removeLoop failSet rest (deleteFile st f)).2.1,
           (removeLoop failSet rest (deleteFile st f)).2.2.1,
           (removeLoop failSet rest (deleteFile st f)).2.2.2)
        else
          ((removeLoop failSet rest (deleteFile st f)).1,
           f.name :: (removeLoop failSet rest (deleteFile st f)).2.1,
           (removeLoop failSet rest (deleteFile st f)).2.2.1,
           (removeLoop failSet rest (deleteFile st f)).2.2.2)) := rfl

lemma removeLoop_results (failSet : List PyStr) (plan : List RemovalItem) :
    ∀ st : DiskState,
      (removeLoop failSet plan st).1
        = (plan.filter (fun f => (f.ftype == ps "image") && !(failSet.contains f.name))).map
            (fun f => f.name)
      ∧ (removeLoop failSet plan st).2.1
        = (plan.filter (fun f => !(f.ftype == ps "image") && !(failSet.contains f.name))).map
            (fun f => f.name)
      ∧ (removeLoop failSet plan st).2.2.1
        = (plan.filter (fun f => failSet.contains f.name)).map
            (fun f => ps "Failed to remove " ++ f.name) := by
  induction plan with
  | nil => intro st; exact ⟨rfl, rfl, rfl⟩
  | cons f rest ih =>
    intro st
    by_cases hfail : f.name ∈ failSet
    · refine ⟨?_, ?_, ?_⟩ <;>
        simp [removeLoop_cons, hfail, List.filter_cons, (ih st).1, (ih st).2.1,
              (ih st).2.2]
    · by_cases hft : f.ftype = ps "image"
      · refine ⟨?_, ?_, ?_⟩ <;>
          simp [removeLoop_cons, hfail, hft, List.filter_cons,
                (ih (deleteFile st f)).1, (ih (deleteFile st f)).2.1,
                (ih (deleteFile st f)).2.2]
      · refine ⟨?_, ?_, ?_⟩ <;>
          simp [removeLoop_cons, hfail, hft, List.filter_cons,
                (ih (deleteFile st f)).1, (ih (deleteFile st f)).2.1,
                (ih (deleteFile st f)).2.2]

lemma removeLoop_nil_state (plan : List RemovalItem) :
    ∀ st : DiskState,
      ((removeLoop [] plan st).2.2.2).images
        = st.images.filter
            (fun e => !(plan.any (fun f => (f.ftype == ps "image") && f.name == e.name)))
      ∧ ((removeLoop [] plan st).2.2.2).metaNames
        = st.metaNames.filter
            (fun m => !(plan.any (fun f => !(f.ftype == ps "image") && f.name == m)))
      ∧ ((removeLoop [] plan st).2.2.2).archive = st.archive := by
  induction plan with
  | nil =>
    intro st
    refine ⟨?_, ?_, rfl⟩ <;> simp [removeLoop]
  | cons f rest ih =>
    intro st
    have hm : f.name ∉ ([] : List PyStr) := List.not_mem_nil f.name
    by_cases hft : f.ftype = ps "image"
    · obtain ⟨i1, i2, i3⟩ := ih (deleteFile st f)
      refine ⟨?_, ?_, ?_⟩
      · rw [removeLoop_cons]
        rw [if_neg (by simpa using hm), if_pos hft]
        show ((removeLoop [] rest (deleteFile st f)).2.2.2).images = _
        rw [i1]
        simp only [deleteFile, if_pos hft]
        rw [List.filter_filter]
        apply List.filter_congr
        intro e _
        simp only [List.any_cons, hft, Bool.not_or, bne]
        by_cases hname : f.name = e.name
        · simp [hname]
        · have h1 : (e.name == f.name) = false :=
            beq_eq_false_iff_ne.mpr (fun h => hname h.symm)
          have h2 : (f.name == e.name) = false := beq_eq_false_iff_ne.mpr hname
          simp [h1, h2]
      · rw [removeLoop_cons]
        rw [if_neg (by simpa using hm), if_pos hft]
        show ((removeLoop [] rest (deleteFile st f)).2.2.2).metaNames = _
        rw [i2]
        simp only [deleteFile, if_pos hft]
        apply List.filter_congr
        intro m _
        simp [List.any_cons, hft]
      · rw [removeLoop_cons]
        rw [if_neg (by simpa using hm), if_pos hft]
        show ((removeLoop [] rest (deleteFile st f)).2.2.2).archive = _
        rw [i3]
        simp [deleteFile, if_pos hft]
    · obtain ⟨i1, i2, i3⟩ := ih (deleteFile st f)
      refine ⟨?_, ?_, ?_⟩
      · rw [removeLoop_cons]
        rw [if_neg (by simpa using hm), if_neg hft]
        show ((removeLoop [] rest (deleteFile st f)).2.2.2).images = _
        rw [i1]
        simp only [deleteFile, if_neg hft]
        apply List.filter_congr
        intro e _
        simp [List.any_cons, hft]
      · rw [removeLoop_cons]
        rw [if_neg (by simpa using hm), if_neg hft]
        show ((removeLoop [] rest (deleteFile st f)).2.2.2).metaNames = _
        rw [i2]
        simp only [deleteFile, if_neg hft]
        rw [List.filter_filter]
        apply List.filter_congr
        intro m _
        simp only [List.any_cons, hft, Bool.not_or, bne]
        by_cases hname : f.name = m
        · simp [hname, hft]
        · have h1 : (m == f.name) = false :=
            beq_eq_false_iff_ne.mpr (fun h => hname h.symm)
          have h2 : (f.name == m) = false := beq_eq_false_iff_ne.mpr hname
          simp [h1, h2]
      · rw [removeLoop_cons]
        rw [if_neg (by simpa using hm), if_neg hft]
        show ((removeLoop [] rest (deleteFile st f)).2.2.2).archive = _
        rw [i3]
        simp [deleteFile, if_neg hft]

lemma ite_archive_images (c : Bool) (st : DiskState) (x : List PyStr) :
    (if c = true then { st with archive := st.archive ++ x } else st).images = st.images := by
  split <;> rfl

lemma ite_archive_metaNames (c : Bool) (st : DiskState) (x : List PyStr) :
    (if c = true then { st with archive := st.archive ++ x } else st).metaNames
      = st.metaNames := by
  split <;> rfl

/-- C8: dry-run cleanup returns the state unchanged together with the
exact removal plan and the byte total; a subsequent non-dry-run call on
the same state (with no deletion failures) removes exactly the planned
files — the removed-name lists are the plan's names and the resulting
directories are the originals minus exactly those names.  When there
are no orphans at all, both calls report nothing and remove nothing. -/
theorem c8_dry_run_safety (N : Nat) (contentList : List ContentJson) (st : DiskState)
    (archiveFlag : Bool) :
    (cleanupOrphanedImages N contentList st true archiveFlag []).2 = st
    ∧ (¬ ((identifyOrphanedImages N contentList st.images st.metaNames).total_orphaned = 0
          ∧ (identifyOrphanedImages N contentList st.images
              st.metaNames).total_metadata_orphaned = 0) →
        (cleanupOrphanedImages N contentList st true archiveFlag []).1.status = ps "dry_run"
        ∧ (cleanupOrphanedImages N contentList st true archiveFlag []).1.files_to_remove
            = filesToRemove (identifyOrphanedImages N contentList st.images st.metaNames) st
        ∧ (cleanupOrphanedImages N contentList st true archiveFlag []).1.space_saved_bytes
            = (identifyOrphanedImages N contentList st.images st.metaNames).total_size
        ∧ (cleanupOrphanedImages N contentList st false archiveFlag []).1.removed_images
            = ((filesToRemove (identifyOrphanedImages N contentList st.images st.metaNames)
                  st).filter (fun f => f.ftype == ps "image")).map (fun f => f.name)
        ∧ (cleanupOrphanedImages N contentList st false archiveFlag []).1.removed_metadata
            = ((filesToRemove (identifyOrphanedImages N contentList st.images st.metaNames)
                  st).filter (fun f => !(f.ftype == ps "image"))).map (fun f => f.name)
        ∧ (cleanupOrphanedImages N contentList st false archiveFlag []).1.errors = []
        ∧ ((cleanupOrphanedImages N contentList st false archiveFlag []).2).images
            = st.images.filter (fun e =>
                !((filesToRemove (identifyOrphanedImages N contentList st.images
                    st.metaNames) st).any
                  (fun f => (f.ftype == ps "image") && f.name == e.name)))
        ∧ ((cleanupOrphanedImages N contentList st false archiveFlag []).2).metaNames
            = st.metaNames.filter (fun m =>
                !((filesToRemove (identifyOrphanedImages N contentList st.images
                    st.metaNames) st).any
                  (fun f => !(f.ftype == ps "image") && f.name == m))))
    ∧ (((identifyOrphanedImages N contentList st.images st.metaNames).total_orphaned = 0
          ∧ (identifyOrphanedImages N contentList st.images
              st.metaNames).total_metadata_orphaned = 0) →
        (cleanupOrphanedImages N contentList st true archiveFlag []).1.files_to_remove = []
        ∧ (cleanupOrphanedImages N contentList st false archiveFlag []).2 = st
        ∧ (cleanupOrphanedImages N contentList st false archiveFlag []).1.removed_images = []
        ∧ (cleanupOrphanedImages N contentList st false archiveFlag []).1.removed_metadata
            = []) := by
  by_cases hz : ((identifyOrphanedImages N contentList st.images st.metaNames).total_orphaned = 0
      ∧ (identifyOrphanedImages N contentList st.images st.metaNames).total_metadata_orphaned
        = 0)
  · refine ⟨?_, fun h => absurd hz h, fun _ => ⟨?_, ?_, ?_, ?_⟩⟩ <;>
      (simp only [cleanupOrphanedImages]; rw [if_pos hz])
  · have hdry : cleanupOrphanedImages N contentList st true archiveFlag []
        = ({ status := ps "dry_run",
             files_to_remove :=
               filesToRemove (identifyOrphanedImages N contentList st.images st.metaNames) st,
             space_saved_bytes :=
               (identifyOrphanedImages N contentList st.images st.metaNames).total_size,
             archive_location :=
               if archiveFlag then some (ps "would create archive") else none }, st) := by
      simp only [cleanupOrphanedImages]
      rw [if_neg hz]
      simp
    refine ⟨by rw [hdry], fun _ => ?_, fun h => absurd h hz⟩
    have hwet : cleanupOrphanedImages N contentList st false archiveFlag []
        = (let files :=
             filesToRemove (identifyOrphanedImages N contentList st.images st.metaNames) st
           let archived := archiveFlag && !files.isEmpty
           let st1 :=
             if archived then { st with archive := st.archive ++ files.map (fun f => f.name) }
             else st
           let r := removeLoop [] files st1
           ({ status := if r.2.2.1 = [] then ps "completed" else ps "completed_with_errors",
              removed_images := r.1, removed_metadata := r.2.1, errors := r.2.2.1,
              archive_location := if archived then some (ps "cleanup_archive") else none,
              space_saved_bytes :=
                (identifyOrphanedImages N contentList st.images st.metaNames).total_size },
            r.2.2.2)) := by
      simp only [cleanupOrphanedImages]
      rw [if_neg hz]
      simp
    refine ⟨by rw [hdry], by rw [hdry], by rw [hdry], ?_, ?_, ?_, ?_, ?_⟩
    · rw [hwet]
      show (removeLoop [] _ _).1 = _
      rw [(removeLoop_results [] _ _).1]
      refine congrArg (List.map (fun f : RemovalItem => f.name)) (List.filter_congr ?_)
      intro f _
      simp
    · rw [hwet]
      show (removeLoop [] _ _).2.1 = _
      rw [(removeLoop_results [] _ _).2.1]
      refine congrArg (List.map (fun f : RemovalItem => f.name)) (List.filter_congr ?_)
      intro f _
      simp
    · rw [hwet]
      show (removeLoop [] _ _).2.2.1 = _
      rw [(removeLoop_results [] _ _).2.2]
      simp
    · rw [hwet]
      show ((removeLoop [] _ _).2.2.2).images = _
      rw [(removeLoop_nil_state _ _).1, ite_archive_images]
    · rw [hwet]
      show ((removeLoop [] _ _).2.2.2).metaNames = _
      rw [(removeLoop_nil_state _ _).2.1, ite_archive_metaNames]

/-- C8 witness: on a concrete state with three orphaned files, dry-run
leaves the state untouched and reports exactly them; the non-dry-run
call removes exactly them. -/
theorem c8_witness :
    (cleanupOrphanedImages 3 [cRealW] stW true true []).2 = stW
    ∧ (cleanupOrphanedImages 3 [cRealW] stW true true []).1.files_to_remove
        = [⟨ps "ghost_v1.png", ps "image", ps "content file missing"⟩,
           ⟨ps "real_v5.png", ps "image", excessReason 3⟩,
           ⟨ps "ghost_v1_metadata.json", ps "metadata", ps "orphaned metadata"⟩]
    ∧ (cleanupOrphanedImages 3 [cRealW] stW true true []).1.space_saved_bytes = 30
    ∧ (cleanupOrphanedImages 3 [cRealW] stW false true []).1.removed_images
        = [ps "ghost_v1.png", ps "real_v5.png"]
    ∧ (cleanupOrphanedImages 3 [cRealW] stW false true []).1.removed_metadata
        = [ps "ghost_v1_metadata.json"]
    ∧ ((cleanupOrphanedImages 3 [cRealW] stW false true []).2).images = []
    ∧ ((cleanupOrphanedImages 3 [cRealW] stW false true []).2).metaNames = [] := by
  have h := c8_dry_run_safety 3 [cRealW] stW true
  have hw := h.2.1 (by decide)
  exact ⟨h.1, hw.2.1.trans rfl, hw.2.2.1.trans rfl, hw.2.2.2.1.trans rfl,
         hw.2.2.2.2.1.trans rfl, hw.2.2.2.2.2.2.1.trans rfl, hw.2.2.2.2.2.2.2.trans rfl⟩

/-- C9: during a non-dry-run cleanup, every planned file is attempted:
those whose deletion raises contribute exactly one entry each to the
errors list, all others are removed, and the status is
"completed_with_errors" exactly when some deletion failed (and
"completed" otherwise) — a failure never aborts the batch. -/
theorem c9_cleanup_partial_failure (N : Nat) (contentList : List ContentJson) (st : DiskState)
    (archiveFlag : Bool) (failSet : List PyStr)
    (hz : ¬ ((identifyOrphanedImages N contentList st.images st.metaNames).total_orphaned = 0
        ∧ (identifyOrphanedImages N contentList st.images
            st.metaNames).total_metadata_orphaned = 0)) :
    (cleanupOrphanedImages N contentList st false archiveFlag failSet).1.removed_images
      = ((filesToRemove (identifyOrphanedImages N contentList st.images st.metaNames)
            st).filter (fun f => (f.ftype == ps "image") && !(failSet.contains f.name))).map
          (fun f => f.name)
    ∧ (cleanupOrphanedImages N contentList st false archiveFlag failSet).1.removed_metadata
      = ((filesToRemove (identifyOrphanedImages N contentList st.images st.metaNames)
            st).filter (fun f => !(f.ftype == ps "image") && !(failSet.contains f.name))).map
          (fun f => f.name)
    ∧ (cleanupOrphanedImages N contentList st false archiveFlag failSet).1.errors
      = ((filesToRemove (identifyOrphanedImages N contentList st.images st.metaNames)
            st).filter (fun f => failSet.contains f.name)).map
          (fun f => ps "Failed to remove " ++ f.name)
    ∧ ((cleanupOrphanedImages N contentList st false archiveFlag failSet).1.errors = [] →
        (cleanupOrphanedImages N contentList st false archiveFlag failSet).1.status
          = ps "completed")
    ∧ ((cleanupOrphanedImages N contentList st false archiveFlag failSet).1.errors ≠ [] →
        (cleanupOrphanedImages N contentList st false archiveFlag failSet).1.status
          = ps "completed_with_errors")
    ∧ ∀ f ∈ filesToRemove (identifyOrphanedImages N contentList st.images st.metaNames) st,
        (failSet.contains f.name = true
          ∧ (ps "Failed to remove " ++ f.name)
            ∈ (cleanupOrphanedImages N contentList st false archiveFlag failSet).1.errors)
        ∨ (failSet.contains f.name = false
          ∧ f.name
            ∈ (cleanupOrphanedImages N contentList st false archiveFlag failSet).1.removed_images
              ++ (cleanupOrphanedImages N contentList st false archiveFlag
                    failSet).1.removed_metadata) := by
  have hwet : cleanupOrphanedImages N contentList st false archiveFlag failSet
      = (let files :=
           filesToRemove (identifyOrphanedImages N contentList st.images st.metaNames) st
         let archived := archiveFlag && !files.isEmpty
         let st1 :=
           if archived then { st with archive := st.archive ++ files.map (fun f => f.name) }
           else st
         let r := removeLoop failSet files st1
         ({ status := if r.2.2.1 = [] then ps "completed" else ps "completed_with_errors",
            removed_images := r.1, removed_metadata := r.2.1, errors := r.2.2.1,
            archive_location := if archived then some (ps "cleanup_archive") else none,
            space_saved_bytes :=
              (identifyOrphanedImages N contentList st.images st.metaNames).total_size },
          r.2.2.2)) := by
    simp only [cleanupOrphanedImages]
    rw [if_neg hz]
    simp
  have h1 : (cleanupOrphanedImages N contentList st false archiveFlag failSet).1.removed_images
      = ((filesToRemove (identifyOrphanedImages N contentList st.images st.metaNames)
            st).filter (fun f => (f.ftype == ps "image") && !(failSet.contains f.name))).map
          (fun f => f.name) := by rw [hwet]; exact (removeLoop_results failSet _ _).1
  have h2 : (cleanupOrphanedImages N contentList st false archiveFlag
      failSet).1.removed_metadata
      = ((filesToRemove (identifyOrphanedImages N contentList st.images st.metaNames)
            st).filter (fun f => !(f.ftype == ps "image") && !(failSet.contains f.name))).map
          (fun f => f.name) := by rw [hwet]; exact (removeLoop_results failSet _ _).2.1
  have h3 : (cleanupOrphanedImages N contentList st false archiveFlag failSet).1.errors
      = ((filesToRemove (identifyOrphanedImages N contentList st.images st.metaNames)
            st).filter (fun f => failSet.contains f.name)).map
          (fun f => ps "Failed to remove " ++ f.name) := by
    rw [hwet]; exact (removeLoop_results failSet _ _).2.2
  refine ⟨h1, h2, h3, ?_, ?_, ?_⟩
  · intro he
    rw [hwet]
    show (if _ = ([] : List PyStr) then _ else _) = _
    rw [if_pos (by rw [hwet] at he; exact he)]
  · intro he
    rw [hwet]
    show (if _ = ([] : List PyStr) then _ else _) = _
    rw [if_neg (by rw [hwet] at he; exact he)]
  · intro f hf
    by_cases hfail : f.name ∈ failSet
    · left
      refine ⟨by simpa using hfail, ?_⟩
      rw [h3]
      exact List.mem_map.mpr ⟨f, List.mem_filter.mpr ⟨hf, by simpa using hfail⟩, rfl⟩
    · right
      refine ⟨by simpa using hfail, ?_⟩
      by_cases hft : (f.ftype == ps "image") = true
      · refine List.mem_append.mpr (Or.inl ?_)
        rw [h1]
        refine List.mem_map.mpr ⟨f, List.mem_filter.mpr ⟨hf, ?_⟩, rfl⟩
        simp [hft, hfail]
      · refine List.mem_append.mpr (Or.inr ?_)
        rw [h2]
        refine List.mem_map.mpr ⟨f, List.mem_filter.mpr ⟨hf, ?_⟩, rfl⟩
        simp [hft, hfail]

/-- C9 witness: with the deletion of real_v5.png failing, the other two
files are still removed, the failure is reported in errors, and the
status is completed_with_errors. -/
theorem c9_witness :
    (cleanupOrphanedImages 3 [cRealW] stW false true [ps "real_v5.png"]).1.removed_images
      = [ps "ghost_v1.png"]
    ∧ (cleanupOrphanedImages 3 [cRealW] stW false true [ps "real_v5.png"]).1.removed_metadata
      = [ps "ghost_v1_metadata.json"]
    ∧ (cleanupOrphanedImages 3 [cRealW] stW false true [ps "real_v5.png"]).1.errors
      = [ps "Failed to remove real_v5.png"]
    ∧ (cleanupOrphanedImages 3 [cRealW] stW false true [ps "real_v5.png"]).1.status
      = ps "completed_with_errors" := by
  have h := c9_cleanup_partial_failure 3 [cRealW] stW true [ps "real_v5.png"] (by decide)
  have herr : (cleanupOrphanedImages 3 [cRealW] stW false true
      [ps "real_v5.png"]).1.errors = [ps "Failed to remove real_v5.png"] :=
    h.2.2.1.trans rfl
  refine ⟨h.1.trans rfl, h.2.1.trans rfl, herr, ?_⟩
  exact h.2.2.2.2.1 (by rw [herr]; exact List.cons_ne_nil _ _)

end Rennie
